import Mathlib

/-!
Verification development for the grid-based collision engine
(`src/component/collider/mod.rs` and `src/component/collider/grid_collision.rs`).

Real numbers (`f32` in the source) are modelled as exact rationals `ℚ`;
machine floating point rounding is outside the scope of these claims, all of
which concern the arithmetic/structural behaviour of the predicates.
Panics (`assert!`, `unimplemented!`, `debug_assert!`) are modelled by
`Option`-valued functions returning `none`.
-/

/-- Three-component vector over exact rationals, modelling the math crate's
`Vector3` / `Point` (`f32` components in the source). -/
@[ext]
structure Vec3 where
  x : ℚ
  y : ℚ
  z : ℚ
deriving DecidableEq, Repr

namespace Vec3

def add (u v : Vec3) : Vec3 := ⟨u.x + v.x, u.y + v.y, u.z + v.z⟩

def sub (u v : Vec3) : Vec3 := ⟨u.x - v.x, u.y - v.y, u.z - v.z⟩

def neg (u : Vec3) : Vec3 := ⟨-u.x, -u.y, -u.z⟩

instance : Add Vec3 := ⟨Vec3.add⟩

instance : Sub Vec3 := ⟨Vec3.sub⟩

instance : Neg Vec3 := ⟨Vec3.neg⟩

/-- `Vector3::dot`. -/
def dot (u v : Vec3) : ℚ := u.x * v.x + u.y * v.y + u.z * v.z

/-- `Vector3::cross`. -/
def cross (u v : Vec3) : Vec3 :=
  ⟨u.y * v.z - u.z * v.y, u.z * v.x - u.x * v.z, u.x * v.y - u.y * v.x⟩

/-- `Vector3::magnitude_squared`, used by the sphere-sphere test. -/
def magnitude_squared (u : Vec3) : ℚ := u.x * u.x + u.y * u.y + u.z * u.z

end Vec3

/-- 3x3 matrix over exact rationals, modelling the math crate's `Matrix3`.
Stored as rows; `m[row][col]` in the source is component `col` of row `row`,
matching the row-major `[(row, col)]` indexing visible in
`Transform::look_at` (`src/component/transform.rs`). -/
@[ext]
structure Mat3 where
  r0 : Vec3
  r1 : Vec3
  r2 : Vec3
deriving DecidableEq, Repr

namespace Mat3

/-- `Matrix3::col(i)`: column `i` as a vector (here spelled per column). -/
def col0 (m : Mat3) : Vec3 := ⟨m.r0.x, m.r1.x, m.r2.x⟩

def col1 (m : Mat3) : Vec3 := ⟨m.r0.y, m.r1.y, m.r2.y⟩

def col2 (m : Mat3) : Vec3 := ⟨m.r0.z, m.r1.z, m.r2.z⟩

/-- `Matrix3::transpose`. -/
def transpose (m : Mat3) : Mat3 := ⟨m.col0, m.col1, m.col2⟩

/-- Matrix product (row `i` of the result dots row of `x` with column of `y`). -/
def mul (x y : Mat3) : Mat3 :=
  ⟨⟨x.r0.dot y.col0, x.r0.dot y.col1, x.r0.dot y.col2⟩,
   ⟨x.r1.dot y.col0, x.r1.dot y.col1, x.r1.dot y.col2⟩,
   ⟨x.r2.dot y.col0, x.r2.dot y.col1, x.r2.dot y.col2⟩⟩

/-- Identity matrix. -/
def id3 : Mat3 := ⟨⟨1, 0, 0⟩, ⟨0, 1, 0⟩, ⟨0, 0, 1⟩⟩

/-- Determinant. -/
def det (m : Mat3) : ℚ :=
    m.r0.x * (m.r1.y * m.r2.z - m.r1.z * m.r2.y)
  - m.r0.y * (m.r1.x * m.r2.z - m.r1.z * m.r2.x)
  + m.r0.z * (m.r1.x * m.r2.y - m.r1.y * m.r2.x)

/-- Scalar multiple of a matrix. -/
def scale (q : ℚ) (m : Mat3) : Mat3 :=
  ⟨⟨q * m.r0.x, q * m.r0.y, q * m.r0.z⟩,
   ⟨q * m.r1.x, q * m.r1.y, q * m.r1.z⟩,
   ⟨q * m.r2.x, q * m.r2.y, q * m.r2.z⟩⟩

/-- Adjugate (transposed cofactor) matrix. -/
def adj (m : Mat3) : Mat3 :=
  ⟨⟨m.r1.y * m.r2.z - m.r1.z * m.r2.y,
    m.r0.z * m.r2.y - m.r0.y * m.r2.z,
    m.r0.y * m.r1.z - m.r0.z * m.r1.y⟩,
   ⟨m.r1.z * m.r2.x - m.r1.x * m.r2.z,
    m.r0.x * m.r2.z - m.r0.z * m.r2.x,
    m.r0.z * m.r1.x - m.r0.x * m.r1.z⟩,
   ⟨m.r1.x * m.r2.y - m.r1.y * m.r2.x,
    m.r0.y * m.r2.x - m.r0.x * m.r2.y,
    m.r0.x * m.r1.y - m.r0.y * m.r1.x⟩⟩

end Mat3

/-- Modelled from the spec: the math crate (not under `src/`) multiplies a
`Vector3` by a `Matrix3`.  The spec describes the SAT test as projecting the
center-offset vector onto each box axis, so `v * m` maps `v` to the vector of
dot products of `m`'s rows with `v`; `t * orientation.transpose()` in
`OBB::test_obb` thus projects `t` onto the orientation's columns (the box's
local axes). -/
def Vec3.mulMat (v : Vec3) (m : Mat3) : Vec3 :=
  ⟨m.r0.dot v, m.r1.dot v, m.r2.dot v⟩

/-- Modelled from the spec: the math crate's `EPSILON` constant (not under
`src/`), "a small fixed epsilon" added to every projected-axis magnitude in
the SAT test.  The claims do not depend on its exact value, only on it being
a fixed constant. -/
def EPSILON : ℚ := 1 / 1000000

/-- `f32::abs`, written as a direct conditional so that concrete evaluation
reduces in the kernel. -/
def qabs (q : ℚ) : ℚ := if q < 0 then -q else q

/-- `Sphere` collider: world-space center and radius. -/
structure Sphere where
  center : Vec3
  radius : ℚ
deriving DecidableEq, Repr

/-- `OBB` (oriented bounding box): center, orientation matrix, half widths. -/
structure OBB where
  center : Vec3
  orientation : Mat3
  half_widths : Vec3
deriving DecidableEq, Repr

/-- Rotation matrix `r` of `OBB::test_obb`: expresses `b` in `a`'s coordinate
frame, `r[row][col] = a.orientation.col(row) ⋅ b.orientation.col(col)`. -/
def obbR (a b : OBB) : Mat3 :=
  ⟨⟨a.orientation.col0.dot b.orientation.col0,
    a.orientation.col0.dot b.orientation.col1,
    a.orientation.col0.dot b.orientation.col2⟩,
   ⟨a.orientation.col1.dot b.orientation.col0,
    a.orientation.col1.dot b.orientation.col1,
    a.orientation.col1.dot b.orientation.col2⟩,
   ⟨a.orientation.col2.dot b.orientation.col0,
    a.orientation.col2.dot b.orientation.col1,
    a.orientation.col2.dot b.orientation.col2⟩⟩

/-- Translation vector `t` of `OBB::test_obb`: `b.center - a.center`, brought
into `a`'s coordinate frame by `t * a.orientation.transpose()`. -/
def obbT (a b : OBB) : Vec3 :=
  (b.center - a.center).mulMat a.orientation.transpose

/-- `abs_r` of `OBB::test_obb`: entrywise `r[row][col].abs() + EPSILON`. -/
def obbAbsR (a b : OBB) : Mat3 :=
  let r := obbR a b
  ⟨⟨qabs (r.r0.x) + EPSILON, qabs (r.r0.y) + EPSILON, qabs (r.r0.z) + EPSILON⟩,
   ⟨qabs (r.r1.x) + EPSILON, qabs (r.r1.y) + EPSILON, qabs (r.r1.z) + EPSILON⟩,
   ⟨qabs (r.r2.x) + EPSILON, qabs (r.r2.y) + EPSILON, qabs (r.r2.z) + EPSILON⟩⟩

/-- `OBB::test_obb`: the 15-axis separating-axis test, translated with the
source's two 3-iteration loops unrolled and each early `return false`
rendered as an `if` chain. -/
def OBB.test_obb (a b : OBB) : Bool :=
  let r := obbR a b
  let t := obbT a b
  let absR := obbAbsR a b
  -- Test axes L = A0, L = A1, L = A2.
  if qabs (t.x) > a.half_widths.x + b.half_widths.dot absR.r0 then false
  else if qabs (t.y) > a.half_widths.y + b.half_widths.dot absR.r1 then false
  else if qabs (t.z) > a.half_widths.z + b.half_widths.dot absR.r2 then false
  -- Test axes L = B0, L = B1, L = B2.
  else if qabs (t.dot r.col0) > a.half_widths.dot absR.col0 + b.half_widths.x then false
  else if qabs (t.dot r.col1) > a.half_widths.dot absR.col1 + b.half_widths.y then false
  else if qabs (t.dot r.col2) > a.half_widths.dot absR.col2 + b.half_widths.z then false
  -- Test axis L = A0 x B0.
  else if qabs (t.z * r.r1.x - t.y * r.r2.x) >
      a.half_widths.y * absR.r2.x + a.half_widths.z * absR.r1.x
    + b.half_widths.y * absR.r0.z + b.half_widths.z * absR.r0.y then false
  -- Test axis L = A0 x B1.
  else if qabs (t.z * r.r1.y - t.y * r.r2.y) >
      a.half_widths.y * absR.r2.y + a.half_widths.z * absR.r1.y
    + b.half_widths.x * absR.r0.z + b.half_widths.z * absR.r0.x then false
  -- Test axis L = A0 x B2.
  else if qabs (t.z * r.r1.z - t.y * r.r2.z) >
      a.half_widths.y * absR.r2.z + a.half_widths.z * absR.r1.z
    + b.half_widths.x * absR.r0.y + b.half_widths.y * absR.r0.x then false
  -- Test axis L = A1 x B0.
  else if qabs (t.x * r.r2.x - t.z * r.r0.x) >
      a.half_widths.x * absR.r2.x + a.half_widths.z * absR.r0.x
    + b.half_widths.y * absR.r1.z + b.half_widths.z * absR.r1.y then false
  -- Test axis L = A1 x B1.
  else if qabs (t.x * r.r2.y - t.z * r.r0.y) >
      a.half_widths.x * absR.r2.y + a.half_widths.z * absR.r0.y
    + b.half_widths.x * absR.r1.z + b.half_widths.z * absR.r1.x then false
  -- Test axis L = A1 x B2.
  else if qabs (t.x * r.r2.z - t.z * r.r0.z) >
      a.half_widths.x * absR.r2.z + a.half_widths.z * absR.r0.z
    + b.half_widths.x * absR.r1.y + b.half_widths.y * absR.r1.x then false
  -- Test axis L = A2 x B0.
  else if qabs (t.y * r.r0.x - t.x * r.r1.x) >
      a.half_widths.x * absR.r1.x + a.half_widths.y * absR.r0.x
    + b.half_widths.y * absR.r2.z + b.half_widths.z * absR.r2.y then false
  -- Test axis L = A2 x B1.
  else if qabs (t.y * r.r0.y - t.x * r.r1.y) >
      a.half_widths.x * absR.r1.y + a.half_widths.y * absR.r0.y
    + b.half_widths.x * absR.r2.z + b.half_widths.z * absR.r2.x then false
  -- Test axis L = A2 x B2.
  else if qabs (t.y * r.r0.z - t.x * r.r1.z) >
      a.half_widths.x * absR.r1.z + a.half_widths.y * absR.r0.z
    + b.half_widths.x * absR.r2.y + b.half_widths.y * absR.r2.x then false
  -- Since no separating axis found, the OBBs must be intersecting.
  else true

/-- `CachedCollider`: a collider's world-space geometric form. -/
inductive CachedCollider where
  | sphere (s : Sphere)
  | box (o : OBB)
  | mesh
deriving DecidableEq, Repr

/-- `Sphere::test_collider`.  `unimplemented!()` arms are `none`. -/
def Sphere.test_collider (s : Sphere) (other : CachedCollider) : Option Bool :=
  match other with
  | CachedCollider.sphere t =>
      let dist_sqr := (s.center - t.center).magnitude_squared
      let max_dist_sqr := (s.radius + t.radius) * (s.radius + t.radius)
      some (dist_sqr < max_dist_sqr)
  | CachedCollider.box _ => none
  | CachedCollider.mesh => none

/-- `OBB::test_collider`.  `unimplemented!()` arms are `none`. -/
def OBB.test_collider (o : OBB) (other : CachedCollider) : Option Bool :=
  match other with
  | CachedCollider.sphere _ => none
  | CachedCollider.box b => some (o.test_obb b)
  | CachedCollider.mesh => none

/-- `CachedCollider::test`.  `unimplemented!()` arms are `none`. -/
def CachedCollider.test (c other : CachedCollider) : Option Bool :=
  match c with
  | CachedCollider.sphere s => s.test_collider other
  | CachedCollider.box o => o.test_collider other
  | CachedCollider.mesh => none

/-- The 15 candidate separating axes of the SAT test, in the order the source
tests them: axes 0-2 are `a`'s face normals, 3-5 are `b`'s face normals,
6-14 are the edge cross products `Ai x Bj` (index `6 + 3*i + j`).
`sepAxis a b k` states that axis `k` separates the boxes: the projected
center distance exceeds the summed projected half-extents, every projection
magnitude taken from the epsilon-inflated `abs_r`. -/
def sepAxis (a b : OBB) (k : Fin 15) : Prop :=
  match k with
  | 0 => qabs ((obbT a b).x) > a.half_widths.x + b.half_widths.dot (obbAbsR a b).r0
  | 1 => qabs ((obbT a b).y) > a.half_widths.y + b.half_widths.dot (obbAbsR a b).r1
  | 2 => qabs ((obbT a b).z) > a.half_widths.z + b.half_widths.dot (obbAbsR a b).r2
  | 3 => qabs ((obbT a b).dot (obbR a b).col0) >
      a.half_widths.dot (obbAbsR a b).col0 + b.half_widths.x
  | 4 => qabs ((obbT a b).dot (obbR a b).col1) >
      a.half_widths.dot (obbAbsR a b).col1 + b.half_widths.y
  | 5 => qabs ((obbT a b).dot (obbR a b).col2) >
      a.half_widths.dot (obbAbsR a b).col2 + b.half_widths.z
  | 6 => qabs ((obbT a b).z * (obbR a b).r1.x - (obbT a b).y * (obbR a b).r2.x) >
      a.half_widths.y * (obbAbsR a b).r2.x + a.half_widths.z * (obbAbsR a b).r1.x
    + b.half_widths.y * (obbAbsR a b).r0.z + b.half_widths.z * (obbAbsR a b).r0.y
  | 7 => qabs ((obbT a b).z * (obbR a b).r1.y - (obbT a b).y * (obbR a b).r2.y) >
      a.half_widths.y * (obbAbsR a b).r2.y + a.half_widths.z * (obbAbsR a b).r1.y
    + b.half_widths.x * (obbAbsR a b).r0.z + b.half_widths.z * (obbAbsR a b).r0.x
  | 8 => qabs ((obbT a b).z * (obbR a b).r1.z - (obbT a b).y * (obbR a b).r2.z) >
      a.half_widths.y * (obbAbsR a b).r2.z + a.half_widths.z * (obbAbsR a b).r1.z
    + b.half_widths.x * (obbAbsR a b).r0.y + b.half_widths.y * (obbAbsR a b).r0.x
  | 9 => qabs ((obbT a b).x * (obbR a b).r2.x - (obbT a b).z * (obbR a b).r0.x) >
      a.half_widths.x * (obbAbsR a b).r2.x + a.half_widths.z * (obbAbsR a b).r0.x
    + b.half_widths.y * (obbAbsR a b).r1.z + b.half_widths.z * (obbAbsR a b).r1.y
  | 10 => qabs ((obbT a b).x * (obbR a b).r2.y - (obbT a b).z * (obbR a b).r0.y) >
      a.half_widths.x * (obbAbsR a b).r2.y + a.half_widths.z * (obbAbsR a b).r0.y
    + b.half_widths.x * (obbAbsR a b).r1.z + b.half_widths.z * (obbAbsR a b).r1.x
  | 11 => qabs ((obbT a b).x * (obbR a b).r2.z - (obbT a b).z * (obbR a b).r0.z) >
      a.half_widths.x * (obbAbsR a b).r2.z + a.half_widths.z * (obbAbsR a b).r0.z
    + b.half_widths.x * (obbAbsR a b).r1.y + b.half_widths.y * (obbAbsR a b).r1.x
  | 12 => qabs ((obbT a b).y * (obbR a b).r0.x - (obbT a b).x * (obbR a b).r1.x) >
      a.half_widths.x * (obbAbsR a b).r1.x + a.half_widths.y * (obbAbsR a b).r0.x
    + b.half_widths.y * (obbAbsR a b).r2.z + b.half_widths.z * (obbAbsR a b).r2.y
  | 13 => qabs ((obbT a b).y * (obbR a b).r0.y - (obbT a b).x * (obbR a b).r1.y) >
      a.half_widths.x * (obbAbsR a b).r1.y + a.half_widths.y * (obbAbsR a b).r0.y
    + b.half_widths.x * (obbAbsR a b).r2.z + b.half_widths.z * (obbAbsR a b).r2.x
  | 14 => qabs ((obbT a b).y * (obbR a b).r0.z - (obbT a b).x * (obbR a b).r1.z) >
      a.half_widths.x * (obbAbsR a b).r1.z + a.half_widths.y * (obbAbsR a b).r0.z
    + b.half_widths.x * (obbAbsR a b).r2.y + b.half_widths.y * (obbAbsR a b).r2.x

instance sepAxisDecidable (a b : OBB) : DecidablePred (sepAxis a b) := fun k =>
  match k with
  | 0 => inferInstanceAs (Decidable (_ > _))
  | 1 => inferInstanceAs (Decidable (_ > _))
  | 2 => inferInstanceAs (Decidable (_ > _))
  | 3 => inferInstanceAs (Decidable (_ > _))
  | 4 => inferInstanceAs (Decidable (_ > _))
  | 5 => inferInstanceAs (Decidable (_ > _))
  | 6 => inferInstanceAs (Decidable (_ > _))
  | 7 => inferInstanceAs (Decidable (_ > _))
  | 8 => inferInstanceAs (Decidable (_ > _))
  | 9 => inferInstanceAs (Decidable (_ > _))
  | 10 => inferInstanceAs (Decidable (_ > _))
  | 11 => inferInstanceAs (Decidable (_ > _))
  | 12 => inferInstanceAs (Decidable (_ > _))
  | 13 => inferInstanceAs (Decidable (_ > _))
  | 14 => inferInstanceAs (Decidable (_ > _))

/-- Abstract 15-condition early-return chain: `false` as soon as a condition
holds, `true` when none does.  `OBB.test_obb` is an instance of this shape. -/
def chain15 (c : Fin 15 → Prop) [DecidablePred c] : Bool :=
  if c 0 then false
  else if c 1 then false
  else if c 2 then false
  else if c 3 then false
  else if c 4 then false
  else if c 5 then false
  else if c 6 then false
  else if c 7 then false
  else if c 8 then false
  else if c 9 then false
  else if c 10 then false
  else if c 11 then false
  else if c 12 then false
  else if c 13 then false
  else if c 14 then false
  else true

/-- Axis-aligned bounding box (world-space min/max corners). -/
structure AABB where
  min : Vec3
  max : Vec3
deriving DecidableEq, Repr

/-- Modelled from the spec: `AABB::test_aabb` lives in
`src/component/collider/bounding_volume.rs`, which is not under `src/`.
Per the spec, "`overlaps(other)` is true iff every axis interval overlaps
(touching at a boundary counts as overlap)". -/
def AABB.test_aabb (a b : AABB) : Bool :=
  a.min.x ≤ b.max.x && b.min.x ≤ a.max.x &&
  a.min.y ≤ b.max.y && b.min.y ≤ a.max.y &&
  a.min.z ≤ b.max.z && b.min.z ≤ a.max.z

/-- Modelled from the spec: `BoundVolume` (the per-entity Volume of
`bounding_volume.rs`, not under `src/`): "`{entity, aabb, collider}` — one
per collidable entity".  Entities are modelled as naturals. -/
structure BoundVolume where
  entity : ℕ
  aabb : AABB
  collider : CachedCollider
deriving DecidableEq, Repr

instance : Inhabited BoundVolume :=
  ⟨⟨0, ⟨⟨0, 0, 0⟩, ⟨0, 0, 0⟩⟩, CachedCollider.sphere ⟨⟨0, 0, 0⟩, 0⟩⟩⟩

/-- Modelled from the spec: `BoundVolume::test` (narrowphase exact test,
`bounding_volume.rs`, not under `src/`) "runs the exact predicate,
polymorphic over shape pair" on the two cached colliders. -/
def BoundVolume.test (a b : BoundVolume) : Option Bool :=
  a.collider.test b.collider

/-- `GridCell`: integer triple identifying a cubic grid cell.  The source's
`GridCoord` is `i16` with a TODO acknowledging that out-of-range wrapping is
not yet handled; coordinates are modelled as unbounded integers. -/
@[ext]
structure GridCell where
  x : ℤ
  y : ℤ
  z : ℤ
deriving DecidableEq, Repr

/-- `GridCell::new`. -/
def GridCell.new (x y z : ℤ) : GridCell := ⟨x, y, z⟩

/-- `WorkUnit::world_to_grid`: maps a world-space point to its grid cell,
`(point / cell_size).floor()` per axis. -/
def WorkUnit.world_to_grid (cell_size : ℚ) (point : Vec3) : GridCell :=
  ⟨⌊point.x / cell_size⌋, ⌊point.y / cell_size⌋, ⌊point.z / cell_size⌋⟩

/-- The sequence of grid cells `Worker::do_broadphase` passes to `test_cell`
for one surviving volume, in source order: the min cell first, then the
corner combinations guarded by the three strict per-axis overlap flags. -/
def cellsToVisit (mn mx : GridCell) : List GridCell :=
  [mn] ++
  (if mn.x < mx.x then
    [GridCell.new mx.x mn.y mn.z] ++
    (if mn.y < mx.y then
      [GridCell.new mn.x mx.y mn.z, GridCell.new mx.x mx.y mn.z] ++
      (if mn.z < mx.z then
        [GridCell.new mn.x mn.y mx.z, GridCell.new mn.x mx.y mx.z,
         GridCell.new mx.x mn.y mx.z, GridCell.new mx.x mx.y mx.z]
       else [])
     else if mn.z < mx.z then
      [GridCell.new mn.x mn.y mx.z, GridCell.new mx.x mn.y mx.z]
     else [])
   else if mn.y < mx.y then
    [GridCell.new mn.x mx.y mn.z] ++
    (if mn.z < mx.z then
      [GridCell.new mn.x mn.y mx.z, GridCell.new mn.x mx.y mx.z]
     else [])
   else if mn.z < mx.z then
    [GridCell.new mn.x mn.y mx.z]
   else [])

/-- Broadphase scratch state of one work unit: the cell buckets (`grid`,
holding snapshot indices of the volumes placed in each cell, in insertion
order) and the worker's accumulated `candidate_collisions`. -/
structure BState where
  grid : GridCell → List ℕ
  candidates : List (ℕ × ℕ)

/-- The closure `test_cell` of `Worker::do_broadphase`: record a candidate
pair against every volume already bucketed in the cell, then insert this
volume into the cell. -/
def testCellStep (v : ℕ) (s : BState) (c : GridCell) : BState :=
  { grid := Function.update s.grid c (s.grid c ++ [v]),
    candidates := s.candidates ++ (s.grid c).map (fun u => (v, u)) }

/-- Per-volume broadphase step (release semantics, the `debug_assert!`
compiled out): skip the volume unless its AABB overlaps the unit's bounds,
otherwise run `test_cell` on each cell of `cellsToVisit`. -/
def processVolume (cell_size : ℚ) (bounds : AABB) (s : BState) (iv : ℕ × BoundVolume) :
    BState :=
  if iv.2.aabb.test_aabb bounds then
    let mn := WorkUnit.world_to_grid cell_size iv.2.aabb.min
    let mx := WorkUnit.world_to_grid cell_size iv.2.aabb.max
    (cellsToVisit mn mx).foldl (testCellStep iv.1) s
  else s

/-- Whether a volume's AABB spans more grid cells per axis than the
`cell_size` invariant anticipates; this is the negation of the condition of
the `debug_assert!` in `Worker::do_broadphase`. -/
def spanTooWide (cell_size : ℚ) (v : BoundVolume) : Bool :=
  let mn := WorkUnit.world_to_grid cell_size v.aabb.min
  let mx := WorkUnit.world_to_grid cell_size v.aabb.max
  ¬(mx.x - mn.x ≤ 1 ∧ mx.y - mn.y ≤ 1 ∧ mx.z - mn.z ≤ 1)

/-- `Worker::do_broadphase` over an indexed volume list (release build):
fold the per-volume step over the snapshot.  The volumes are paired with
their snapshot indices, which stand in for the `*const BoundVolume`
pointers of the source. -/
def broadphaseGo (cell_size : ℚ) (bounds : AABB) (l : List (ℕ × BoundVolume)) : BState :=
  l.foldl (processVolume cell_size bounds) ⟨fun _ => [], []⟩

/-- `Worker::do_broadphase` (release build). -/
def Worker.do_broadphase (volumes : List BoundVolume) (cell_size : ℚ) (bounds : AABB) :
    BState :=
  broadphaseGo cell_size bounds volumes.enum

/-- Debug-build per-volume broadphase step: as `processVolume`, but a
surviving volume whose AABB spans too many grid cells fails the
`debug_assert!` (modelled as `none`). -/
def processVolumeDbg (cell_size : ℚ) (bounds : AABB) (acc : Option BState)
    (iv : ℕ × BoundVolume) : Option BState :=
  acc.bind fun s =>
    if iv.2.aabb.test_aabb bounds then
      if spanTooWide cell_size iv.2 then none
      else some (processVolume cell_size bounds s iv)
    else some s

/-- `Worker::do_broadphase` (debug build, `debug_assert!` active). -/
def broadphaseDbgGo (cell_size : ℚ) (bounds : AABB) (l : List (ℕ × BoundVolume)) :
    Option BState :=
  l.foldl (processVolumeDbg cell_size bounds) (some ⟨fun _ => [], []⟩)

def Worker.do_broadphase_dbg (volumes : List BoundVolume) (cell_size : ℚ) (bounds : AABB) :
    Option BState :=
  broadphaseDbgGo cell_size bounds volumes.enum

/-- One step of `Worker::do_narrowphase`: derive the entity pair of a
candidate, skip it if that exact ordered pair is already in the unit's
collision set, otherwise run the exact test (whose `unimplemented!` arms
propagate as `none`) and insert the pair on success. -/
def narrowStep (volumes : List BoundVolume) (acc : Option (List (ℕ × ℕ)))
    (c : ℕ × ℕ) : Option (List (ℕ × ℕ)) :=
  acc.bind fun hits =>
    let bvh := volumes.getD c.1 default
    let other := volumes.getD c.2 default
    let collision_pair := (bvh.entity, other.entity)
    if collision_pair ∈ hits then some hits
    else match bvh.test other with
      | none => none
      | some true => some (hits ++ [collision_pair])
      | some false => some hits

/-- `Worker::do_narrowphase`: folds `narrowStep` over the candidate list;
the resulting list is the unit's `collisions` set in insertion order
(the source's `HashMap`-as-set keyed by ordered entity pair). -/
def Worker.do_narrowphase (volumes : List BoundVolume) (candidates : List (ℕ × ℕ)) :
    Option (List (ℕ × ℕ)) :=
  candidates.foldl (narrowStep volumes) (some [])

/-- One work unit's full pass: broadphase then narrowphase, returning the
unit's `collisions` (`hits`) set. -/
def processUnit (volumes : List BoundVolume) (cell_size : ℚ) (bounds : AABB) :
    Option (List (ℕ × ℕ)) :=
  Worker.do_narrowphase volumes (Worker.do_broadphase volumes cell_size bounds).candidates

/-- The `cell_size` computation at the top of `GridCollisionSystem::update`:
the largest axis-aligned extent over all volumes, starting from `0.0`. -/
def longestExtent (volumes : List BoundVolume) : ℚ :=
  volumes.foldl
    (fun longest bvh =>
      let dx := bvh.aabb.max.x - bvh.aabb.min.x
      let dy := bvh.aabb.max.y - bvh.aabb.min.y
      let dz := bvh.aabb.max.z - bvh.aabb.min.z
      let longest := if dx > longest then dx else longest
      let longest := if dy > longest then dy else longest
      if dz > longest then dz else longest)
    0

/-- `NUM_WORK_UNITS`. -/
def NUM_WORK_UNITS : ℕ := 8

/-- `GridCollisionSystem::update`, sequentialized: the worker pool's only
observable effect on the result is that every work unit is processed
against the shared snapshot with the shared `cell_size`, in some order, and
the returned `hits` sets are merged (set union) into the tick's aggregate.
The leading `assert!` (processed-work count must equal `NUM_WORK_UNITS`) is
modelled as `none`; a narrowphase panic also propagates as `none`. -/
def runUnits (volumes : List BoundVolume) (cell_size : ℚ) :
    List AABB → Option (List (List (ℕ × ℕ)))
  | [] => some []
  | bounds :: rest =>
    match processUnit volumes cell_size bounds, runUnits volumes cell_size rest with
    | some hits, some hitLists => some (hits :: hitLists)
    | _, _ => none

/-- Merging the returned units' `hits` into the tick's aggregate set. -/
def mergeHits (hitLists : List (List (ℕ × ℕ))) : Finset (ℕ × ℕ) :=
  hitLists.foldl (fun s hits => hits.foldl (fun s p => insert p s) s) ∅

def GridCollisionSystem.update (volumes : List BoundVolume) (processed_work : List AABB) :
    Option (Finset (ℕ × ℕ)) :=
  if processed_work.length = NUM_WORK_UNITS then
    (runUnits volumes (longestExtent volumes) processed_work).map mergeHits
  else none

/-- `f32::MAX`, exactly `(2 - 2^-23) * 2^127`. -/
def F32_MAX : ℚ := 2 ^ 128 - 2 ^ 104

/-- `f32::MIN`. -/
def F32_MIN : ℚ := -(2 ^ 128 - 2 ^ 104)

/-- The eight octant bounds built by `GridCollisionSystem::new` in the
`NUM_WORK_UNITS == 8` arm, in construction order. -/
def octantBounds : List AABB :=
  [⟨⟨F32_MIN, F32_MIN, F32_MIN⟩, ⟨0, 0, 0⟩⟩,
   ⟨⟨F32_MIN, F32_MIN, 0⟩, ⟨0, 0, F32_MAX⟩⟩,
   ⟨⟨F32_MIN, 0, F32_MIN⟩, ⟨0, F32_MAX, 0⟩⟩,
   ⟨⟨F32_MIN, 0, 0⟩, ⟨0, F32_MAX, F32_MAX⟩⟩,
   ⟨⟨0, F32_MIN, F32_MIN⟩, ⟨F32_MAX, 0, 0⟩⟩,
   ⟨⟨0, F32_MIN, 0⟩, ⟨F32_MAX, 0, F32_MAX⟩⟩,
   ⟨⟨0, 0, F32_MIN⟩, ⟨F32_MAX, F32_MAX, 0⟩⟩,
   ⟨⟨0, 0, 0⟩, ⟨F32_MAX, F32_MAX, F32_MAX⟩⟩]

/-- `CallbackId`, produced by `callback_id::<T>() = type_id::<T>()`: the
identity of a handler is its concrete Rust type, modelled as a natural. -/
abbrev CallbackId : Type := ℕ

/-- A handler value: its `CallbackId` (the concrete type, shared by every
value of that type) and a payload modelling the captured state that
distinguishes one value of the type from another. -/
structure Handler where
  id : CallbackId
  payload : ℕ

/-- `CollisionCallbackManager`: `callbacks` maps a `CallbackId` to the one
stored boxed handler of that type (its payload here); `entity_callbacks`
maps an entity to its ordered list of registered callback ids (empty when
the entity has no entry). -/
structure CollisionCallbackManager where
  callbacks : CallbackId → Option ℕ
  entity_callbacks : ℕ → List CallbackId

/-- `CollisionCallbackManager::new`. -/
def CollisionCallbackManager.new : CollisionCallbackManager :=
  ⟨fun _ => none, fun _ => []⟩

/-- `CollisionCallbackManager::register`: store the handler under its type
id only if no handler of that type is stored yet; then append the id to the
entity's list (the source's has-entry/no-entry branches both amount to
appending to the entity's current, possibly empty, list). -/
def CollisionCallbackManager.register (m : CollisionCallbackManager) (entity : ℕ)
    (callback : Handler) : CollisionCallbackManager :=
  let callbacks :=
    if (m.callbacks callback.id).isSome then m.callbacks
    else Function.update m.callbacks callback.id (some callback.payload)
  ⟨callbacks,
   Function.update m.entity_callbacks entity
     (m.entity_callbacks entity ++ [callback.id])⟩

/-- One handler invocation observed during dispatch: the invoked callback
id, the stored payload it resolves to (`callbacks.get_mut(id).unwrap()`,
`none` when the unwrap would panic), and the two entity arguments. -/
structure Invocation where
  id : CallbackId
  payload : Option ℕ
  first : ℕ
  second : ℕ
deriving DecidableEq

/-- The invocations one collision pair produces in
`CollisionCallbackManager::process_collisions`: every handler registered to
`pair.0` invoked with `(pair.0, pair.1)`, then every handler registered to
`pair.1` invoked with `(pair.1, pair.0)`. -/
def dispatchPair (m : CollisionCallbackManager) (pair : ℕ × ℕ) : List Invocation :=
  (m.entity_callbacks pair.1).map (fun i => ⟨i, m.callbacks i, pair.1, pair.2⟩) ++
  (m.entity_callbacks pair.2).map (fun i => ⟨i, m.callbacks i, pair.2, pair.1⟩)

/-- `CollisionCallbackManager::process_collisions`: the ordered trace of
handler invocations for the given collision pairs (the source iterates a
`HashSet`; the model takes the iteration order as the given list). -/
def CollisionCallbackManager.process_collisions (m : CollisionCallbackManager)
    (collisions : List (ℕ × ℕ)) : List Invocation :=
  collisions.foldl (fun trace pair => trace ++ dispatchPair m pair) []

/-- Shape-pair combinations on which the exact predicate is unsupported:
sphere-versus-box in either order, or any pair involving a `Mesh`. -/
def unsupportedPair (a b : CachedCollider) : Prop :=
  (∃ s o, a = CachedCollider.sphere s ∧ b = CachedCollider.box o) ∨
  (∃ o s, a = CachedCollider.box o ∧ b = CachedCollider.sphere s) ∨
  a = CachedCollider.mesh ∨ b = CachedCollider.mesh

/-- A proper rotation matrix: orthonormal columns and determinant one.  This
is the shape of every orientation the engine feeds to the SAT test
(`Matrix3::from_quaternion` of a unit quaternion). -/
def Mat3.isRotation (m : Mat3) : Prop :=
  m.transpose.mul m = Mat3.id3 ∧ m.det = 1

/-- Broadphase bookkeeping invariant: all bucketed snapshot indices are
below `n`, and every candidate pair is (later index, strictly earlier
index) with the later index below `n`. -/
def BInv (s : BState) (n : ℕ) : Prop :=
  (∀ c, ∀ u ∈ s.grid c, u < n) ∧ (∀ p ∈ s.candidates, p.2 < p.1 ∧ p.1 < n)

def c4Vol : BoundVolume :=
  ⟨7, ⟨⟨0, 0, 0⟩, ⟨1/2, 1/2, 1/2⟩⟩, CachedCollider.sphere ⟨⟨1/4, 1/4, 1/4⟩, 1/4⟩⟩

def c4Bounds : AABB := ⟨⟨0, 0, 0⟩, ⟨10, 10, 10⟩⟩

def c4State : BState := ⟨fun _ => [], []⟩

def c9Vol : BoundVolume :=
  ⟨3, ⟨⟨0, 0, 0⟩, ⟨5/2, 1/2, 1/2⟩⟩, CachedCollider.sphere ⟨⟨5/4, 1/4, 1/4⟩, 5/4⟩⟩

def c1Box : OBB := ⟨⟨0, 0, 0⟩, Mat3.id3, ⟨1, 1, 1⟩⟩

def rot345 : Mat3 := ⟨⟨3/5, -4/5, 0⟩, ⟨4/5, 3/5, 0⟩, ⟨0, 0, 1⟩⟩

def c5BoxA : OBB := ⟨⟨0, 0, 0⟩, Mat3.id3, ⟨1, 2, 3⟩⟩

def c5BoxB : OBB := ⟨⟨1, 1, 0⟩, rot345, ⟨2, 1, 1⟩⟩

theorem qabs_eq_abs (q : ℚ) : qabs q = |q| := by
  unfold qabs
  rcases lt_or_ge q 0 with h | h
  · rw [if_pos h, abs_of_neg h]
  · rw [if_neg (not_lt.mpr h), abs_of_nonneg h]

theorem chain15_false_iff (c : Fin 15 → Prop) [DecidablePred c] :
    chain15 c = false ↔ ∃ k, c k := by
  unfold chain15
  by_cases h0 : c 0
  · simp only [if_pos h0]
    exact iff_of_true trivial ⟨0, h0⟩
  · simp only [if_neg h0]
    by_cases h1 : c 1
    · simp only [if_pos h1]
      exact iff_of_true trivial ⟨1, h1⟩
    · simp only [if_neg h1]
      by_cases h2 : c 2
      · simp only [if_pos h2]
        exact iff_of_true trivial ⟨2, h2⟩
      · simp only [if_neg h2]
        by_cases h3 : c 3
        · simp only [if_pos h3]
          exact iff_of_true trivial ⟨3, h3⟩
        · simp only [if_neg h3]
          by_cases h4 : c 4
          · simp only [if_pos h4]
            exact iff_of_true trivial ⟨4, h4⟩
          · simp only [if_neg h4]
            by_cases h5 : c 5
            · simp only [if_pos h5]
              exact iff_of_true trivial ⟨5, h5⟩
            · simp only [if_neg h5]
              by_cases h6 : c 6
              · simp only [if_pos h6]
                exact iff_of_true trivial ⟨6, h6⟩
              · simp only [if_neg h6]
                by_cases h7 : c 7
                · simp only [if_pos h7]
                  exact iff_of_true trivial ⟨7, h7⟩
                · simp only [if_neg h7]
                  by_cases h8 : c 8
                  · simp only [if_pos h8]
                    exact iff_of_true trivial ⟨8, h8⟩
                  · simp only [if_neg h8]
                    by_cases h9 : c 9
                    · simp only [if_pos h9]
                      exact iff_of_true trivial ⟨9, h9⟩
                    · simp only [if_neg h9]
                      by_cases h10 : c 10
                      · simp only [if_pos h10]
                        exact iff_of_true trivial ⟨10, h10⟩
                      · simp only [if_neg h10]
                        by_cases h11 : c 11
                        · simp only [if_pos h11]
                          exact iff_of_true trivial ⟨11, h11⟩
                        · simp only [if_neg h11]
                          by_cases h12 : c 12
                          · simp only [if_pos h12]
                            exact iff_of_true trivial ⟨12, h12⟩
                          · simp only [if_neg h12]
                            by_cases h13 : c 13
                            · simp only [if_pos h13]
                              exact iff_of_true trivial ⟨13, h13⟩
                            · simp only [if_neg h13]
                              by_cases h14 : c 14
                              · simp only [if_pos h14]
                                exact iff_of_true trivial ⟨14, h14⟩
                              · simp only [if_neg h14]
                                refine iff_of_false (by simp) ?_
                                rintro ⟨k, hk⟩
                                fin_cases k
                                exacts [h0 hk, h1 hk, h2 hk, h3 hk, h4 hk, h5 hk, h6 hk, h7 hk, h8 hk, h9 hk, h10 hk, h11 hk, h12 hk, h13 hk, h14 hk]

theorem test_obb_eq_chain15 (a b : OBB) : a.test_obb b = chain15 (sepAxis a b) := rfl

theorem test_obb_false_iff (a b : OBB) :
    a.test_obb b = false ↔ ∃ k, sepAxis a b k := by
  rw [test_obb_eq_chain15]
  exact chain15_false_iff _

theorem Vec3.sub_def (u v : Vec3) : u - v = ⟨u.x - v.x, u.y - v.y, u.z - v.z⟩ := rfl

theorem Vec3.neg_def (u : Vec3) : -u = ⟨-u.x, -u.y, -u.z⟩ := rfl

/-- C2: the sphere-sphere exact predicate returns true iff the squared
center distance is strictly below the squared radius sum; at exact tangency
(squared distance equal to the squared radius sum) it returns false. -/
theorem sphere_sphere_strict (s1 s2 : Sphere) :
    ((CachedCollider.sphere s1).test (CachedCollider.sphere s2) = some true ↔
      (s1.center - s2.center).magnitude_squared <
        (s1.radius + s2.radius) * (s1.radius + s2.radius)) ∧
    ((s1.center - s2.center).magnitude_squared =
        (s1.radius + s2.radius) * (s1.radius + s2.radius) →
      (CachedCollider.sphere s1).test (CachedCollider.sphere s2) = some false) := by
  constructor
  · simp [CachedCollider.test, Sphere.test_collider]
  · intro h
    simp [CachedCollider.test, Sphere.test_collider, h]

/-- Witness for C2: unit spheres centered at the origin and at `(2,0,0)`
touch exactly (distance 2 = radius sum 2) and do not collide. -/
theorem sphere_sphere_strict_witness :
    (CachedCollider.sphere ⟨⟨0, 0, 0⟩, 1⟩).test (CachedCollider.sphere ⟨⟨2, 0, 0⟩, 1⟩) =
      some false :=
  (sphere_sphere_strict ⟨⟨0, 0, 0⟩, 1⟩ ⟨⟨2, 0, 0⟩, 1⟩).2
    (by norm_num [Vec3.sub_def, Vec3.magnitude_squared])

/-- C7: the exact predicate on a sphere-versus-box pair (either order) or on
any pair involving a `Mesh` collider is the fatal `unimplemented!()` panic
(modelled `none`), never a silent `some false`. -/
theorem unsupported_pairs_panic (a b : CachedCollider) (h : unsupportedPair a b) :
    CachedCollider.test a b = none := by
  cases a <;> cases b <;>
    simp_all [unsupportedPair, CachedCollider.test, Sphere.test_collider, OBB.test_collider]

/-- Witness for C7: a concrete sphere-versus-box invocation panics. -/
theorem unsupported_pairs_panic_witness :
    CachedCollider.test (CachedCollider.sphere ⟨⟨0, 0, 0⟩, 1⟩)
      (CachedCollider.box ⟨⟨0, 0, 0⟩, Mat3.id3, ⟨1, 1, 1⟩⟩) = none :=
  unsupported_pairs_panic _ _ (Or.inl ⟨_, _, rfl, rfl⟩)

/-- C8: `GridCollisionSystem::update` hits the fatal leading assertion (and
does not proceed) whenever the number of work units held differs from
`NUM_WORK_UNITS`. -/
theorem update_asserts_work_unit_count (volumes : List BoundVolume)
    (processed_work : List AABB) (h : processed_work.length ≠ NUM_WORK_UNITS) :
    GridCollisionSystem.update volumes processed_work = none := by
  unfold GridCollisionSystem.update
  rw [if_neg h]

/-- Witness for C8: an update attempted with no returned work units fails
the assertion. -/
theorem update_asserts_work_unit_count_witness :
    GridCollisionSystem.update [] [] = none :=
  update_asserts_work_unit_count [] [] (by decide)

theorem process_collisions_foldl (m : CollisionCallbackManager) :
    ∀ (pairs : List (ℕ × ℕ)) (acc : List Invocation),
      pairs.foldl (fun trace pair => trace ++ dispatchPair m pair) acc =
        acc ++ pairs.flatMap (dispatchPair m) := by
  intro pairs
  induction pairs with
  | nil => simp
  | cons p rest ih =>
    intro acc
    simp [List.foldl_cons, ih, List.flatMap_cons]

theorem process_collisions_eq_bind (m : CollisionCallbackManager)
    (pairs : List (ℕ × ℕ)) :
    m.process_collisions pairs = pairs.flatMap (dispatchPair m) := by
  unfold CollisionCallbackManager.process_collisions
  rw [process_collisions_foldl]
  simp

/-- C6: dispatch invokes, for each confirmed pair `(a,b)`, every handler
registered to `a` with arguments `(a,b)` and then every handler registered
to `b` with `(b,a)`; in particular one handler registered to both entities
of a single colliding pair is invoked exactly twice, once per order. -/
theorem dispatch_invokes_both_orders :
    (∀ (m : CollisionCallbackManager) (pairs : List (ℕ × ℕ)),
      m.process_collisions pairs = pairs.flatMap (fun p =>
        (m.entity_callbacks p.1).map (fun i => ⟨i, m.callbacks i, p.1, p.2⟩) ++
        (m.entity_callbacks p.2).map (fun i => ⟨i, m.callbacks i, p.2, p.1⟩))) ∧
    (∀ (e1 e2 : ℕ) (h : Handler), e1 ≠ e2 →
      ((CollisionCallbackManager.new.register e1 h).register e2 h).process_collisions
          [(e1, e2)] =
        [⟨h.id, some h.payload, e1, e2⟩, ⟨h.id, some h.payload, e2, e1⟩]) := by
  constructor
  · intro m pairs
    exact process_collisions_eq_bind m pairs
  · intro e1 e2 h hne
    rw [process_collisions_eq_bind]
    simp [CollisionCallbackManager.register, CollisionCallbackManager.new,
      dispatchPair, Function.update_apply, hne, Ne.symm hne]

/-- Witness for C6: the concrete two-sphere scenario, one handler type
registered to both entities, dispatched on the single pair `(1,2)`. -/
theorem dispatch_invokes_both_orders_witness :
    ((CollisionCallbackManager.new.register 1 ⟨5, 7⟩).register 2 ⟨5, 7⟩).process_collisions
        [(1, 2)] =
      [⟨5, some 7, 1, 2⟩, ⟨5, some 7, 2, 1⟩] :=
  dispatch_invokes_both_orders.2 1 2 ⟨5, 7⟩ (by decide)

/-- C10: handler identity is the handler's concrete type (`type_id`), not
its value: registering two distinct handler values of the same type stores
only the first process-wide, discards the second (its payload is stored
nowhere), and every subsequent dispatch resolves to the first handler. -/
theorem handler_identity_is_type (e1 e2 : ℕ) (h1 h2 : Handler)
    (m : CollisionCallbackManager)
    (hm : m = (CollisionCallbackManager.new.register e1 h1).register e2 h2)
    (hid : h2.id = h1.id) (hpay : h2.payload ≠ h1.payload) :
    (m.callbacks h1.id = some h1.payload) ∧
    (∀ i, m.callbacks i ≠ some h2.payload) ∧
    (∀ e i, i ∈ m.entity_callbacks e → i = h1.id) ∧
    (∀ (pairs : List (ℕ × ℕ)) (inv : Invocation),
      inv ∈ m.process_collisions pairs →
        inv.id = h1.id ∧ inv.payload = some h1.payload) := by
  have hcb : m.callbacks = Function.update (fun _ => none) h1.id (some h1.payload) := by
    subst hm
    simp [CollisionCallbackManager.register, CollisionCallbackManager.new, hid,
      Function.update_apply]
  have hec : ∀ e i, i ∈ m.entity_callbacks e → i = h1.id := by
    subst hm
    intro e i hi
    simp only [CollisionCallbackManager.register, CollisionCallbackManager.new,
      Function.update_apply] at hi
    split_ifs at hi <;> simp_all [hid]
  refine ⟨?_, ?_, hec, ?_⟩
  · rw [hcb, Function.update_same]
  · intro i
    rw [hcb, Function.update_apply]
    split_ifs
    · simp [fun h => hpay (Option.some_injective _ h).symm]
      intro hcontra
      exact hpay hcontra.symm
    · simp
  · intro pairs inv hinv
    rw [process_collisions_eq_bind] at hinv
    simp only [List.mem_flatMap] at hinv
    obtain ⟨p, _, hp⟩ := hinv
    simp only [dispatchPair, List.mem_append, List.mem_map] at hp
    have hfrom : ∃ i, i ∈ m.entity_callbacks p.1 ∧ inv.id = i ∧ inv.payload = m.callbacks i ∨
        i ∈ m.entity_callbacks p.2 ∧ inv.id = i ∧ inv.payload = m.callbacks i := by
      rcases hp with ⟨i, hi, he⟩ | ⟨i, hi, he⟩
      · exact ⟨i, Or.inl ⟨hi, by rw [← he], by rw [← he]⟩⟩
      · exact ⟨i, Or.inr ⟨hi, by rw [← he], by rw [← he]⟩⟩
    obtain ⟨i, hcase⟩ := hfrom
    rcases hcase with ⟨hi, hvid, hvp⟩ | ⟨hi, hvid, hvp⟩ <;>
    · have hieq : i = h1.id := hec _ _ hi
      subst hieq
      refine ⟨hvid, ?_⟩
      rw [hvp, hcb, Function.update_same]

/-- Witness for C10: two distinct handler values of type 5 registered to
entities 1 and 2; the stored handler is the first one. -/
theorem handler_identity_is_type_witness :
    ((((CollisionCallbackManager.new.register 1 ⟨5, 10⟩).register 2 ⟨5, 11⟩).callbacks 5 =
        some 10)) ∧
    (∀ i, ((CollisionCallbackManager.new.register 1 ⟨5, 10⟩).register 2 ⟨5, 11⟩).callbacks i ≠
        some 11) :=
  let h := handler_identity_is_type 1 2 ⟨5, 10⟩ ⟨5, 11⟩ _ rfl rfl (by decide)
  ⟨h.1, h.2.1⟩

theorem flatMap_congr_mem {α β : Type} (l : List α) (f g : α → List β)
    (h : ∀ a ∈ l, f a = g a) : l.flatMap f = l.flatMap g := by
  induction l with
  | nil => rfl
  | cons a rest ih =>
    rw [List.flatMap_cons, List.flatMap_cons, h a (List.mem_cons_self a rest),
      ih fun x hx => h x (List.mem_cons_of_mem a hx)]

theorem foldl_testCellStep (v : ℕ) :
    ∀ (L : List GridCell), L.Nodup → ∀ (s : BState),
      ((L.foldl (testCellStep v) s).candidates =
        s.candidates ++ L.flatMap (fun c => (s.grid c).map (fun u => (v, u)))) ∧
      (∀ c, (L.foldl (testCellStep v) s).grid c =
        if c ∈ L then s.grid c ++ [v] else s.grid c) := by
  intro L
  induction L with
  | nil => intro _ s; simp
  | cons c0 rest ih =>
    intro hnd s
    rw [List.nodup_cons] at hnd
    obtain ⟨hc0, hrest⟩ := hnd
    obtain ⟨ihc, ihg⟩ := ih hrest (testCellStep v s c0)
    have hgrid_mem : ∀ c ∈ rest, (testCellStep v s c0).grid c = s.grid c := by
      intro c hc
      have hne : c ≠ c0 := fun h => hc0 (h ▸ hc)
      simp [testCellStep, Function.update_apply, hne]
    constructor
    · rw [List.foldl_cons, ihc,
        flatMap_congr_mem rest _ _
          (fun c hc => by rw [hgrid_mem c hc]),
        List.flatMap_cons]
      simp [testCellStep]
    · intro c
      rw [List.foldl_cons, ihg c]
      by_cases hc : c ∈ rest
      · have hne : c ≠ c0 := fun h => hc0 (h ▸ hc)
        simp [hc, hgrid_mem c hc, List.mem_cons, hne]
      · by_cases hcc : c = c0
        · subst hcc
          simp [hc, testCellStep, Function.update_apply, List.mem_cons]
        · simp [hc, hcc, testCellStep, Function.update_apply, List.mem_cons]

theorem cellsToVisit_nodup (mn mx : GridCell) : (cellsToVisit mn mx).Nodup := by
  unfold cellsToVisit GridCell.new
  by_cases hx : mn.x < mx.x <;> by_cases hy : mn.y < mx.y <;> by_cases hz : mn.z < mx.z <;>
    simp [hx, hy, hz, List.nodup_cons, List.mem_cons, GridCell.ext_iff] <;>
    omega

theorem cellsToVisit_length (mn mx : GridCell) : (cellsToVisit mn mx).length ≤ 8 := by
  unfold cellsToVisit GridCell.new
  by_cases hx : mn.x < mx.x <;> by_cases hy : mn.y < mx.y <;> by_cases hz : mn.z < mx.z <;>
    simp [hx, hy, hz]

theorem cellsToVisit_mem (mn mx : GridCell) (hx : mn.x ≤ mx.x) (hy : mn.y ≤ mx.y)
    (hz : mn.z ≤ mx.z) (c : GridCell) :
    c ∈ cellsToVisit mn mx ↔
      (c.x = mn.x ∨ c.x = mx.x) ∧ (c.y = mn.y ∨ c.y = mx.y) ∧ (c.z = mn.z ∨ c.z = mx.z) := by
  unfold cellsToVisit GridCell.new
  by_cases hxe : mn.x < mx.x <;> by_cases hye : mn.y < mx.y <;> by_cases hze : mn.z < mx.z <;>
    simp [hxe, hye, hze, List.mem_cons, GridCell.ext_iff] <;>
    omega

/-- C4: broadphase skips a volume unless its AABB overlaps the unit's
bounds; a surviving volume visits exactly the distinct grid cells in the
span between the cells of its AABB's min and max corners (up to 8, each
once), and in each visited cell records a candidate pair against every
volume already bucketed there and then inserts itself into the cell. -/
theorem broadphase_visits_corner_span (cell_size : ℚ) (bounds : AABB) (s : BState)
    (i : ℕ) (v : BoundVolume) :
    (v.aabb.test_aabb bounds = false → processVolume cell_size bounds s (i, v) = s) ∧
    (v.aabb.test_aabb bounds = true →
      ∀ mn mx, mn = WorkUnit.world_to_grid cell_size v.aabb.min →
        mx = WorkUnit.world_to_grid cell_size v.aabb.max →
        mn.x ≤ mx.x → mn.y ≤ mx.y → mn.z ≤ mx.z →
        mx.x ≤ mn.x + 1 → mx.y ≤ mn.y + 1 → mx.z ≤ mn.z + 1 →
        (cellsToVisit mn mx).Nodup ∧
        (cellsToVisit mn mx).length ≤ 8 ∧
        (∀ c, c ∈ cellsToVisit mn mx ↔
          (mn.x ≤ c.x ∧ c.x ≤ mx.x) ∧ (mn.y ≤ c.y ∧ c.y ≤ mx.y) ∧
          (mn.z ≤ c.z ∧ c.z ≤ mx.z)) ∧
        ((processVolume cell_size bounds s (i, v)).candidates =
          s.candidates ++
            (cellsToVisit mn mx).flatMap (fun c => (s.grid c).map (fun u => (i, u)))) ∧
        (∀ c, (processVolume cell_size bounds s (i, v)).grid c =
          if c ∈ cellsToVisit mn mx then s.grid c ++ [i] else s.grid c)) := by
  constructor
  · intro h
    simp [processVolume, h]
  · intro h mn mx hmn hmx hx hy hz hsx hsy hsz
    subst hmn hmx
    set mn := WorkUnit.world_to_grid cell_size v.aabb.min with hmn
    set mx := WorkUnit.world_to_grid cell_size v.aabb.max with hmx
    have hproc : processVolume cell_size bounds s (i, v) =
        (cellsToVisit mn mx).foldl (testCellStep i) s := by
      simp [processVolume, h]
    obtain ⟨hcand, hgrid⟩ := foldl_testCellStep i (cellsToVisit mn mx)
      (cellsToVisit_nodup mn mx) s
    refine ⟨cellsToVisit_nodup mn mx, cellsToVisit_length mn mx, ?_, ?_, ?_⟩
    · intro c
      rw [cellsToVisit_mem mn mx hx hy hz c]
      omega
    · rw [hproc, hcand]
    · intro c
      rw [hproc, hgrid c]

/-- Witness for C4: a small volume in the corner octant, cell size 1; its
AABB corners both map to cell `(0,0,0)`. -/
theorem broadphase_visits_corner_span_witness :
    (cellsToVisit ⟨0, 0, 0⟩ ⟨0, 0, 0⟩).Nodup ∧
    (cellsToVisit ⟨0, 0, 0⟩ ⟨0, 0, 0⟩).length ≤ 8 ∧
    (∀ c, c ∈ cellsToVisit ⟨0, 0, 0⟩ ⟨0, 0, 0⟩ ↔
      ((0 : ℤ) ≤ c.x ∧ c.x ≤ 0) ∧ ((0 : ℤ) ≤ c.y ∧ c.y ≤ 0) ∧
      ((0 : ℤ) ≤ c.z ∧ c.z ≤ 0)) ∧
    ((processVolume 1 c4Bounds c4State (7, c4Vol)).candidates =
      c4State.candidates ++
        (cellsToVisit ⟨0, 0, 0⟩ ⟨0, 0, 0⟩).flatMap
          (fun c => (c4State.grid c).map (fun u => (7, u)))) ∧
    (∀ c, (processVolume 1 c4Bounds c4State (7, c4Vol)).grid c =
      if c ∈ cellsToVisit ⟨0, 0, 0⟩ ⟨0, 0, 0⟩ then c4State.grid c ++ [7] else c4State.grid c) :=
  (broadphase_visits_corner_span 1 c4Bounds c4State 7 c4Vol).2
    (by norm_num [AABB.test_aabb, c4Vol, c4Bounds])
    ⟨0, 0, 0⟩ ⟨0, 0, 0⟩
    (by norm_num [WorkUnit.world_to_grid, c4Vol, GridCell.mk.injEq])
    (by norm_num [WorkUnit.world_to_grid, c4Vol, GridCell.mk.injEq])
    (by decide) (by decide) (by decide) (by decide) (by decide) (by decide)

theorem foldl_processVolumeDbg_none (cell_size : ℚ) (bounds : AABB) :
    ∀ (l : List (ℕ × BoundVolume)),
      l.foldl (processVolumeDbg cell_size bounds) none = none := by
  intro l
  induction l with
  | nil => rfl
  | cons iv rest ih => simp [List.foldl_cons, processVolumeDbg, ih]

theorem foldl_processVolumeDbg (cell_size : ℚ) (bounds : AABB) :
    ∀ (l : List (ℕ × BoundVolume)) (s : BState),
      l.foldl (processVolumeDbg cell_size bounds) (some s) =
        if l.any (fun iv => iv.2.aabb.test_aabb bounds && spanTooWide cell_size iv.2) then
          none
        else some (l.foldl (processVolume cell_size bounds) s) := by
  intro l
  induction l with
  | nil => intro s; simp
  | cons iv rest ih =>
    intro s
    rw [List.foldl_cons, List.foldl_cons]
    by_cases ht : iv.2.aabb.test_aabb bounds
    · by_cases hs : spanTooWide cell_size iv.2
      · have : processVolumeDbg cell_size bounds (some s) iv = none := by
          simp [processVolumeDbg, ht, hs]
        rw [this, foldl_processVolumeDbg_none, List.any_cons]
        simp [ht, hs]
      · rw [Bool.not_eq_true] at hs
        have : processVolumeDbg cell_size bounds (some s) iv =
            some (processVolume cell_size bounds s iv) := by
          simp [processVolumeDbg, ht, hs]
        rw [this, ih, List.any_cons, ht, hs]
        simp only [Bool.true_and, Bool.false_or]
    · rw [Bool.not_eq_true] at ht
      have hstep : processVolumeDbg cell_size bounds (some s) iv = some s := by
        simp [processVolumeDbg, ht]
      have hrel : processVolume cell_size bounds s iv = s := by
        simp [processVolume, ht]
      rw [hstep, ih, List.any_cons, hrel, ht]
      simp only [Bool.false_and, Bool.false_or]

theorem enumFrom_any_snd (q : BoundVolume → Bool) :
    ∀ (l : List BoundVolume) (n : ℕ),
      ((List.enumFrom n l).any fun iv => q iv.2) = l.any q := by
  intro l
  induction l with
  | nil => intro n; rfl
  | cons v rest ih =>
    intro n
    rw [List.enumFrom_cons, List.any_cons, List.any_cons, ih]

/-- C9 (amended): in a debug build, a surviving volume whose AABB spans more
than two grid cells on some axis fails the `debug_assert!` (terminating that
pass with the diagnostic, not continuing); when no surviving volume is
oversized the debug pass computes exactly the release result, and the
release (`optimized`) broadphase contains no span check at all, so an
oversized AABB has no effect on its control flow. -/
theorem debug_broadphase_characterization (volumes : List BoundVolume)
    (cell_size : ℚ) (bounds : AABB) :
    Worker.do_broadphase_dbg volumes cell_size bounds =
      if volumes.any (fun v => v.aabb.test_aabb bounds && spanTooWide cell_size v) then
        none
      else some (Worker.do_broadphase volumes cell_size bounds) := by
  unfold Worker.do_broadphase_dbg Worker.do_broadphase broadphaseDbgGo broadphaseGo
  rw [foldl_processVolumeDbg]
  rw [show List.enum volumes = List.enumFrom 0 volumes from rfl,
    enumFrom_any_snd (fun v => v.aabb.test_aabb bounds && spanTooWide cell_size v) volumes 0]

/-- Counterexample for C9 as stated: with cell size 1, a surviving volume
whose AABB spans three cells along x makes the debug-build broadphase fail
its assertion (`none`) instead of continuing with best-effort candidate
generation for that volume (`some` of the release result). -/
theorem debug_oversized_counterexample :
    Worker.do_broadphase_dbg [c9Vol] 1 c4Bounds = none ∧
    Worker.do_broadphase_dbg [c9Vol] 1 c4Bounds ≠
      some (Worker.do_broadphase [c9Vol] 1 c4Bounds) := by
  have ht : c9Vol.aabb.test_aabb c4Bounds = true := by
    norm_num [AABB.test_aabb, c9Vol, c4Bounds]
  have hs : spanTooWide 1 c9Vol = true := by
    norm_num [spanTooWide, WorkUnit.world_to_grid, c9Vol]
  have hnone : Worker.do_broadphase_dbg [c9Vol] 1 c4Bounds = none := by
    rw [debug_broadphase_characterization]
    simp [ht, hs]
  exact ⟨hnone, by rw [hnone]; simp⟩

/-- C1: the exact box-box SAT predicate returns false iff at least one of
the 15 axes (3 face normals of `a`, 3 of `b`, 9 edge cross products)
separates the boxes -- projected center distance exceeding the summed
projected half-extents, with every rotation-matrix entry epsilon-inflated
in absolute value -- and returns true when no axis separates them. -/
theorem test_obb_sat_iff (a b : OBB) :
    (a.test_obb b = false ↔ ∃ k, sepAxis a b k) ∧
    ((∀ k, ¬ sepAxis a b k) → a.test_obb b = true) := by
  refine ⟨test_obb_false_iff a b, fun hno => ?_⟩
  rcases Bool.eq_false_or_eq_true (a.test_obb b) with ht | hf
  · exact ht
  · exact absurd ((test_obb_false_iff a b).mp hf).choose_spec
      (hno ((test_obb_false_iff a b).mp hf).choose)

/-- Witness for C1: coincident identity-oriented unit boxes have no
separating axis, so the predicate returns true. -/
theorem test_obb_sat_iff_witness : c1Box.test_obb c1Box = true :=
  (test_obb_sat_iff c1Box c1Box).2 (by
    intro k
    fin_cases k <;>
      norm_num [sepAxis, obbT, obbR, obbAbsR, EPSILON, Mat3.id3, Mat3.col0, Mat3.col1,
        Mat3.col2, Mat3.transpose, Vec3.dot, Vec3.mulMat, Vec3.sub_def, qabs, c1Box])

theorem processVolume_BInv (cell_size : ℚ) (bounds : AABB) (s : BState) (i : ℕ)
    (v : BoundVolume) (n : ℕ) (h : BInv s n) (hin : n ≤ i) :
    BInv (processVolume cell_size bounds s (i, v)) (i + 1) := by
  obtain ⟨hg, hc⟩ := h
  by_cases ht : v.aabb.test_aabb bounds
  · have hproc : processVolume cell_size bounds s (i, v) =
        (cellsToVisit (WorkUnit.world_to_grid cell_size v.aabb.min)
          (WorkUnit.world_to_grid cell_size v.aabb.max)).foldl (testCellStep i) s := by
      simp [processVolume, ht]
    set L := cellsToVisit (WorkUnit.world_to_grid cell_size v.aabb.min)
      (WorkUnit.world_to_grid cell_size v.aabb.max) with hL
    obtain ⟨hcand, hgrid⟩ := foldl_testCellStep i L (cellsToVisit_nodup _ _) s
    constructor
    · intro c u hu
      rw [hproc, hgrid c] at hu
      by_cases hm : c ∈ L
      · rw [if_pos hm, List.mem_append] at hu
        rcases hu with hu | hu
        · exact lt_of_lt_of_le (hg c u hu) (Nat.le_succ_of_le hin)
        · rw [List.mem_singleton] at hu
          omega
      · rw [if_neg hm] at hu
        exact lt_of_lt_of_le (hg c u hu) (Nat.le_succ_of_le hin)
    · intro p hp
      rw [hproc, hcand, List.mem_append] at hp
      rcases hp with hp | hp
      · obtain ⟨h1, h2⟩ := hc p hp
        omega
      · rw [List.mem_flatMap] at hp
        obtain ⟨c, _, hp⟩ := hp
        rw [List.mem_map] at hp
        obtain ⟨u, hu, hpu⟩ := hp
        have := hg c u hu
        subst hpu
        simp only
        omega
  · rw [Bool.not_eq_true] at ht
    have hproc : processVolume cell_size bounds s (i, v) = s := by
      simp [processVolume, ht]
    rw [hproc]
    exact ⟨fun c u hu => lt_of_lt_of_le (hg c u hu) (Nat.le_succ_of_le hin),
      fun p hp => ⟨(hc p hp).1, lt_of_lt_of_le (hc p hp).2 (Nat.le_succ_of_le hin)⟩⟩

theorem broadphase_foldl_BInv (cell_size : ℚ) (bounds : AABB) :
    ∀ (vols : List BoundVolume) (n : ℕ) (s : BState), BInv s n →
      BInv (List.foldl (processVolume cell_size bounds) s (List.enumFrom n vols))
        (n + vols.length) := by
  intro vols
  induction vols with
  | nil => intro n s h; simpa using h
  | cons v rest ih =>
    intro n s h
    rw [List.enumFrom_cons, List.foldl_cons]
    have hstep := processVolume_BInv cell_size bounds s n v n h (le_refl n)
    have h2 := ih (n + 1) _ hstep
    have hlen : n + (v :: rest).length = (n + 1) + rest.length := by
      rw [List.length_cons]
      omega
    rw [hlen]
    exact h2

theorem do_broadphase_BInv (volumes : List BoundVolume) (cell_size : ℚ) (bounds : AABB) :
    BInv (Worker.do_broadphase volumes cell_size bounds) volumes.length := by
  have h0 : BInv ⟨fun _ => [], []⟩ 0 := ⟨fun c u hu => absurd hu (List.not_mem_nil u),
    fun p hp => absurd hp (List.not_mem_nil p)⟩
  have h := broadphase_foldl_BInv cell_size bounds volumes 0 _ h0
  unfold Worker.do_broadphase broadphaseGo
  rw [show volumes.enum = List.enumFrom 0 volumes from rfl]
  simpa using h

theorem foldl_narrowStep_none (volumes : List BoundVolume) :
    ∀ (cands : List (ℕ × ℕ)), List.foldl (narrowStep volumes) none cands = none := by
  intro cands
  induction cands with
  | nil => rfl
  | cons c rest ih => simp [List.foldl_cons, narrowStep, ih]

theorem narrow_foldl_mem (volumes : List BoundVolume) (Q : ℕ × ℕ → Prop) :
    ∀ (cands : List (ℕ × ℕ)) (acc hits : List (ℕ × ℕ)),
      (∀ c ∈ cands, Q c) →
      (∀ p ∈ acc, ∃ i j, Q (i, j) ∧
        p = ((volumes.getD i default).entity, (volumes.getD j default).entity)) →
      List.foldl (narrowStep volumes) (some acc) cands = some hits →
      ∀ p ∈ hits, ∃ i j, Q (i, j) ∧
        p = ((volumes.getD i default).entity, (volumes.getD j default).entity) := by
  intro cands
  induction cands with
  | nil =>
    intro acc hits _ hacc hfold
    simp only [List.foldl_nil, Option.some.injEq] at hfold
    exact hfold ▸ hacc
  | cons c rest ih =>
    intro acc hits hQ hacc hfold
    rw [List.foldl_cons] at hfold
    have hQc : Q c := hQ c (List.mem_cons_self c rest)
    have hQrest : ∀ x ∈ rest, Q x := fun x hx => hQ x (List.mem_cons_of_mem c hx)
    by_cases hmem : ((volumes.getD c.1 default).entity,
        (volumes.getD c.2 default).entity) ∈ acc
    · have hstep : narrowStep volumes (some acc) c = some acc := by
        simp only [narrowStep, Option.some_bind]
        rw [if_pos hmem]
      rw [hstep] at hfold
      exact ih acc hits hQrest hacc hfold
    · rcases htest : (volumes.getD c.1 default).test (volumes.getD c.2 default) with _ | b
      · have hstep : narrowStep volumes (some acc) c = none := by
          simp only [narrowStep, Option.some_bind]
          rw [if_neg hmem, htest]
        rw [hstep, foldl_narrowStep_none] at hfold
        exact absurd hfold (by simp)
      · cases b with
        | true =>
          have hstep : narrowStep volumes (some acc) c =
              some (acc ++ [((volumes.getD c.1 default).entity,
                (volumes.getD c.2 default).entity)]) := by
            simp only [narrowStep, Option.some_bind]
            rw [if_neg hmem, htest]
          rw [hstep] at hfold
          refine ih _ hits hQrest ?_ hfold
          intro p hp
          rw [List.mem_append, List.mem_singleton] at hp
          rcases hp with hp | hp
          · exact hacc p hp
          · exact ⟨c.1, c.2, by rwa [show ((c.1, c.2) : ℕ × ℕ) = c from rfl], hp⟩
        | false =>
          have hstep : narrowStep volumes (some acc) c = some acc := by
            simp only [narrowStep, Option.some_bind]
            rw [if_neg hmem, htest]
          rw [hstep] at hfold
          exact ih acc hits hQrest hacc hfold

theorem processUnit_hits_order (volumes : List BoundVolume) (cell_size : ℚ)
    (bounds : AABB) (hits : List (ℕ × ℕ))
    (h : processUnit volumes cell_size bounds = some hits) :
    ∀ p ∈ hits, ∃ i j, j < i ∧ i < volumes.length ∧
      p = ((volumes.getD i default).entity, (volumes.getD j default).entity) := by
  have hinv := do_broadphase_BInv volumes cell_size bounds
  unfold processUnit Worker.do_narrowphase at h
  intro p hp
  have := narrow_foldl_mem volumes (fun c => c.2 < c.1 ∧ c.1 < volumes.length)
    (Worker.do_broadphase volumes cell_size bounds).candidates [] hits
    (fun c hc => hinv.2 c hc) (by simp) h p hp
  obtain ⟨i, j, ⟨hji, hlen⟩, hpe⟩ := this
  exact ⟨i, j, hji, hlen, hpe⟩

theorem foldl_insert_mem (p : ℕ × ℕ) :
    ∀ (hits : List (ℕ × ℕ)) (s : Finset (ℕ × ℕ)),
      (p ∈ hits.foldl (fun s q => insert q s) s ↔ p ∈ s ∨ p ∈ hits) := by
  intro hits
  induction hits with
  | nil => intro s; simp
  | cons q rest ih =>
    intro s
    rw [List.foldl_cons, ih, Finset.mem_insert, List.mem_cons]
    tauto

theorem mem_mergeHits (hitLists : List (List (ℕ × ℕ))) (p : ℕ × ℕ) :
    p ∈ mergeHits hitLists ↔ ∃ h ∈ hitLists, p ∈ h := by
  unfold mergeHits
  suffices hgen : ∀ (s : Finset (ℕ × ℕ)),
      p ∈ hitLists.foldl (fun s hits => hits.foldl (fun s q => insert q s) s) s ↔
        p ∈ s ∨ ∃ h ∈ hitLists, p ∈ h by
    rw [hgen ∅]
    simp
  induction hitLists with
  | nil => intro s; simp
  | cons h rest ih =>
    intro s
    rw [List.foldl_cons, ih, foldl_insert_mem]
    simp only [List.mem_cons]
    constructor
    · rintro (⟨hp | hp⟩ | ⟨l, hl, hp⟩)
      · exact Or.inl hp
      · exact Or.inr ⟨h, Or.inl rfl, hp⟩
      · exact Or.inr ⟨l, Or.inr hl, hp⟩
    · rintro (hp | ⟨l, hl | hl, hp⟩)
      · exact Or.inl (Or.inl hp)
      · exact Or.inl (Or.inr (hl ▸ hp))
      · exact Or.inr ⟨l, hl, hp⟩

theorem runUnits_mem (volumes : List BoundVolume) (cell_size : ℚ) :
    ∀ (work : List AABB) (hitLists : List (List (ℕ × ℕ))),
      runUnits volumes cell_size work = some hitLists →
      (∀ h ∈ hitLists, ∃ b ∈ work, processUnit volumes cell_size b = some h) ∧
      (∀ b ∈ work, ∃ h ∈ hitLists, processUnit volumes cell_size b = some h) := by
  intro work
  induction work with
  | nil =>
    intro hitLists hrun
    simp only [runUnits, Option.some.injEq] at hrun
    subst hrun
    exact ⟨by simp, by simp⟩
  | cons b rest ih =>
    intro hitLists hrun
    simp only [runUnits] at hrun
    rcases hb : processUnit volumes cell_size b with _ | hits <;> rw [hb] at hrun
    · exact absurd hrun (by simp)
    · rcases hr : runUnits volumes cell_size rest with _ | hls <;> rw [hr] at hrun
      · exact absurd hrun (by simp)
      · simp only [Option.some.injEq] at hrun
        subst hrun
        obtain ⟨ih1, ih2⟩ := ih hls hr
        constructor
        · intro h hh
          rw [List.mem_cons] at hh
          rcases hh with hh | hh
          · exact ⟨b, List.mem_cons_self b rest, hh ▸ hb⟩
          · obtain ⟨b2, hb2, hp2⟩ := ih1 h hh
            exact ⟨b2, List.mem_cons_of_mem b hb2, hp2⟩
        · intro b2 hb2
          rw [List.mem_cons] at hb2
          rcases hb2 with hb2 | hb2
          · exact ⟨hits, List.mem_cons_self hits hls, hb2 ▸ hb⟩
          · obtain ⟨h, hh, hp⟩ := ih2 b2 hb2
            exact ⟨h, List.mem_cons_of_mem hits hh, hp⟩

theorem entity_index_inj (volumes : List BoundVolume)
    (hnd : (volumes.map BoundVolume.entity).Nodup)
    (i j : ℕ) (hi : i < volumes.length) (hj : j < volumes.length)
    (h : (volumes.getD i default).entity = (volumes.getD j default).entity) : i = j := by
  rw [List.getD_eq_getElem volumes default hi,
    List.getD_eq_getElem volumes default hj] at h
  have hi2 : i < (volumes.map BoundVolume.entity).length := by simpa
  have hj2 : j < (volumes.map BoundVolume.entity).length := by simpa
  have hmap : getElem (volumes.map BoundVolume.entity) i hi2 =
      getElem (volumes.map BoundVolume.entity) j hj2 := by
    simpa [List.getElem_map] using h
  exact (List.Nodup.getElem_inj_iff hnd).mp hmap

/-- C3: on a successful tick, the returned set is the plain union of the
returned work units' `hits` sets, and (for a snapshot with one volume per
entity) a colliding entity pair appears in the final set in at most one
orientation: `(a,b)` and `(b,a)` can both be present only when `a = b`. -/
theorem update_union_and_once (volumes : List BoundVolume) (work : List AABB)
    (S : Finset (ℕ × ℕ)) (h : GridCollisionSystem.update volumes work = some S) :
    (∀ p, p ∈ S ↔ ∃ bounds ∈ work, ∃ hits,
      processUnit volumes (longestExtent volumes) bounds = some hits ∧ p ∈ hits) ∧
    ((volumes.map BoundVolume.entity).Nodup →
      ∀ a b, (a, b) ∈ S → (b, a) ∈ S → a = b) := by
  unfold GridCollisionSystem.update at h
  by_cases hlen : work.length = NUM_WORK_UNITS
  case neg => rw [if_neg hlen] at h; exact absurd h (by simp)
  rw [if_pos hlen] at h
  rcases hr : runUnits volumes (longestExtent volumes) work with _ | hitLists <;>
    rw [hr] at h
  · exact absurd h (by simp)
  rw [Option.map_some'] at h
  have hS : mergeHits hitLists = S := (Option.some.injEq _ _).mp h
  subst hS
  obtain ⟨hdir, hrev⟩ := runUnits_mem volumes (longestExtent volumes) work hitLists hr
  have hmem : ∀ p, p ∈ mergeHits hitLists ↔ ∃ bounds ∈ work, ∃ hits,
      processUnit volumes (longestExtent volumes) bounds = some hits ∧ p ∈ hits := by
    intro p
    rw [mem_mergeHits]
    constructor
    · rintro ⟨hl, hhl, hp⟩
      obtain ⟨b, hb, hpb⟩ := hdir hl hhl
      exact ⟨b, hb, hl, hpb, hp⟩
    · rintro ⟨b, hb, hits, hpb, hp⟩
      obtain ⟨hl, hhl, hpb2⟩ := hrev b hb
      rw [hpb] at hpb2
      obtain rfl := (Option.some.injEq _ _).mp hpb2.symm
      exact ⟨hl, hhl, hp⟩
  refine ⟨hmem, fun hnd a b hab hba => ?_⟩
  obtain ⟨b1, hb1, hits1, hp1, hin1⟩ := (hmem (a, b)).mp hab
  obtain ⟨b2, hb2, hits2, hp2, hin2⟩ := (hmem (b, a)).mp hba
  obtain ⟨i, j, hji, hilen, hije⟩ :=
    processUnit_hits_order volumes _ b1 hits1 hp1 (a, b) hin1
  obtain ⟨k, l, hlk, hklen, hkle⟩ :=
    processUnit_hits_order volumes _ b2 hits2 hp2 (b, a) hin2
  obtain ⟨ha1, hb1e⟩ := Prod.mk.injEq .. ▸ hije
  obtain ⟨hb2e, ha2⟩ := Prod.mk.injEq .. ▸ hkle
  have hil : i = l :=
    entity_index_inj volumes hnd i l hilen (lt_trans hlk hklen) (by rw [← ha1, ← ha2])
  have hjk : j = k :=
    entity_index_inj volumes hnd j k (lt_trans hji hilen) hklen (by rw [← hb1e, ← hb2e])
  omega

/-- Witness for C3: a tick over an empty snapshot with the standard eight
octants succeeds and returns the empty union with the once-per-tick
property. -/
theorem update_union_and_once_witness :
    (∀ p, p ∈ (∅ : Finset (ℕ × ℕ)) ↔ ∃ bounds ∈ octantBounds, ∃ hits,
      processUnit [] (longestExtent []) bounds = some hits ∧ p ∈ hits) ∧
    ((([] : List BoundVolume).map BoundVolume.entity).Nodup →
      ∀ a b, (a, b) ∈ (∅ : Finset (ℕ × ℕ)) → (b, a) ∈ (∅ : Finset (ℕ × ℕ)) → a = b) :=
  update_union_and_once [] octantBounds ∅ rfl

theorem Mat3.mul_assoc3 (x y z : Mat3) : (x.mul y).mul z = x.mul (y.mul z) := by
  ext <;> simp [Mat3.mul, Mat3.col0, Mat3.col1, Mat3.col2, Vec3.dot] <;> ring

theorem Mat3.id3_mul (m : Mat3) : Mat3.id3.mul m = m := by
  ext <;> simp [Mat3.mul, Mat3.id3, Mat3.col0, Mat3.col1, Mat3.col2, Vec3.dot]

theorem Mat3.mul_adj (m : Mat3) : m.mul m.adj = Mat3.scale m.det Mat3.id3 := by
  ext <;>
    simp [Mat3.mul, Mat3.adj, Mat3.scale, Mat3.id3, Mat3.det, Mat3.col0, Mat3.col1,
      Mat3.col2, Vec3.dot] <;>
    ring

theorem Mat3.mul_scale_id (m : Mat3) (q : ℚ) :
    m.mul (Mat3.scale q Mat3.id3) = Mat3.scale q m := by
  ext <;>
    simp [Mat3.mul, Mat3.scale, Mat3.id3, Mat3.col0, Mat3.col1, Mat3.col2, Vec3.dot] <;>
    ring

theorem Mat3.scale_one (m : Mat3) : Mat3.scale 1 m = m := by
  ext <;> simp [Mat3.scale]

theorem Mat3.adj_eq_transpose (m : Mat3) (h : m.isRotation) : m.adj = m.transpose := by
  obtain ⟨horth, hdet⟩ := h
  have e1 : m.transpose.mul (m.mul m.adj) = m.transpose := by
    rw [Mat3.mul_adj, hdet, Mat3.mul_scale_id, Mat3.scale_one]
  have e2 : (m.transpose.mul m).mul m.adj = m.adj := by
    rw [horth, Mat3.id3_mul]
  rw [← e2, Mat3.mul_assoc3, e1]

theorem Mat3.rotation_mul_transpose (m : Mat3) (h : m.isRotation) :
    m.mul m.transpose = Mat3.id3 := by
  rw [← Mat3.adj_eq_transpose m h, Mat3.mul_adj, h.2, Mat3.scale_one]

theorem Vec3.dot_comm (u v : Vec3) : u.dot v = v.dot u := by
  simp only [Vec3.dot]
  ring

theorem Vec3.binet (u v a b : Vec3) :
    (u.cross v).dot (a.cross b) = (u.dot a) * (v.dot b) - (u.dot b) * (v.dot a) := by
  simp only [Vec3.cross, Vec3.dot]
  ring

theorem Mat3.parseval (m : Mat3) (h : m.mul m.transpose = Mat3.id3) (u v : Vec3) :
    (m.col0.dot u) * (m.col0.dot v) + (m.col1.dot u) * (m.col1.dot v) +
      (m.col2.dot u) * (m.col2.dot v) = u.dot v := by
  have h00 := congrArg (fun mm => mm.r0.x) h
  have h01 := congrArg (fun mm => mm.r0.y) h
  have h02 := congrArg (fun mm => mm.r0.z) h
  have h11 := congrArg (fun mm => mm.r1.y) h
  have h12 := congrArg (fun mm => mm.r1.z) h
  have h22 := congrArg (fun mm => mm.r2.z) h
  simp only [Mat3.mul, Mat3.transpose, Mat3.id3, Mat3.col0, Mat3.col1, Mat3.col2,
    Vec3.dot] at h00 h01 h02 h11 h12 h22 ⊢
  linear_combination u.x*v.x*h00 + (u.x*v.y + u.y*v.x)*h01 + (u.x*v.z + u.z*v.x)*h02 +
    u.y*v.y*h11 + (u.y*v.z + u.z*v.y)*h12 + u.z*v.z*h22

theorem Mat3.cross_col12 (m : Mat3) (h : m.isRotation) :
    (m.col1).cross (m.col2) = m.col0 := by
  have hadj := Mat3.adj_eq_transpose m h
  have h0 := congrArg (fun mm => mm.r0.x) hadj
  have h1 := congrArg (fun mm => mm.r0.y) hadj
  have h2 := congrArg (fun mm => mm.r0.z) hadj
  simp only [Mat3.adj, Mat3.transpose, Mat3.col0, Mat3.col1, Mat3.col2] at h0 h1 h2
  ext
  · simp only [Vec3.cross, Mat3.col0, Mat3.col1, Mat3.col2]
    linear_combination h0
  · simp only [Vec3.cross, Mat3.col0, Mat3.col1, Mat3.col2]
    linear_combination h1
  · simp only [Vec3.cross, Mat3.col0, Mat3.col1, Mat3.col2]
    linear_combination h2

theorem Mat3.cross_col20 (m : Mat3) (h : m.isRotation) :
    (m.col2).cross (m.col0) = m.col1 := by
  have hadj := Mat3.adj_eq_transpose m h
  have h0 := congrArg (fun mm => mm.r1.x) hadj
  have h1 := congrArg (fun mm => mm.r1.y) hadj
  have h2 := congrArg (fun mm => mm.r1.z) hadj
  simp only [Mat3.adj, Mat3.transpose, Mat3.col0, Mat3.col1, Mat3.col2] at h0 h1 h2
  ext
  · simp only [Vec3.cross, Mat3.col0, Mat3.col1, Mat3.col2]
    linear_combination h0
  · simp only [Vec3.cross, Mat3.col0, Mat3.col1, Mat3.col2]
    linear_combination h1
  · simp only [Vec3.cross, Mat3.col0, Mat3.col1, Mat3.col2]
    linear_combination h2

theorem Mat3.cross_col01 (m : Mat3) (h : m.isRotation) :
    (m.col0).cross (m.col1) = m.col2 := by
  have hadj := Mat3.adj_eq_transpose m h
  have h0 := congrArg (fun mm => mm.r2.x) hadj
  have h1 := congrArg (fun mm => mm.r2.y) hadj
  have h2 := congrArg (fun mm => mm.r2.z) hadj
  simp only [Mat3.adj, Mat3.transpose, Mat3.col0, Mat3.col1, Mat3.col2] at h0 h1 h2
  ext
  · simp only [Vec3.cross, Mat3.col0, Mat3.col1, Mat3.col2]
    linear_combination h0
  · simp only [Vec3.cross, Mat3.col0, Mat3.col1, Mat3.col2]
    linear_combination h1
  · simp only [Vec3.cross, Mat3.col0, Mat3.col1, Mat3.col2]
    linear_combination h2

theorem Mat3.triple0 (m : Mat3) (h : m.isRotation) (u v : Vec3) :
    m.col0.dot (u.cross v) =
      (m.col1.dot u) * (m.col2.dot v) - (m.col2.dot u) * (m.col1.dot v) := by
  have hb := Vec3.binet u v m.col1 m.col2
  rw [Mat3.cross_col12 m h] at hb
  simp only [Vec3.dot, Vec3.cross] at hb ⊢
  linear_combination hb

theorem Mat3.triple1 (m : Mat3) (h : m.isRotation) (u v : Vec3) :
    m.col1.dot (u.cross v) =
      (m.col2.dot u) * (m.col0.dot v) - (m.col0.dot u) * (m.col2.dot v) := by
  have hb := Vec3.binet u v m.col2 m.col0
  rw [Mat3.cross_col20 m h] at hb
  simp only [Vec3.dot, Vec3.cross] at hb ⊢
  linear_combination hb

theorem Mat3.triple2 (m : Mat3) (h : m.isRotation) (u v : Vec3) :
    m.col2.dot (u.cross v) =
      (m.col0.dot u) * (m.col1.dot v) - (m.col1.dot u) * (m.col0.dot v) := by
  have hb := Vec3.binet u v m.col0 m.col1
  rw [Mat3.cross_col01 m h] at hb
  simp only [Vec3.dot, Vec3.cross] at hb ⊢
  linear_combination hb

theorem qabs_neg (q : ℚ) : qabs (-q) = qabs q := by
  rw [qabs_eq_abs, qabs_eq_abs, abs_neg]

theorem faceSym0 (a b : OBB) (ha : a.orientation.isRotation) :
    sepAxis a b 3 ↔ sepAxis b a 0 := by
  have hP := Mat3.parseval a.orientation (Mat3.rotation_mul_transpose _ ha)
    (b.center - a.center) (b.orientation.col0)
  show (qabs ((obbT a b).dot (obbR a b).col0) >
      a.half_widths.dot (obbAbsR a b).col0 + b.half_widths.x) ↔
    (qabs ((obbT b a).x) > b.half_widths.x + a.half_widths.dot (obbAbsR b a).r0)
  have hX : (obbT a b).dot (obbR a b).col0 = -((obbT b a).x) := by
    simp only [obbT, obbR, obbAbsR, Vec3.mulMat, Mat3.transpose, Mat3.col0, Mat3.col1, Mat3.col2,
      Vec3.dot, Vec3.cross, Vec3.sub_def] at hP ⊢
    linear_combination hP
  have hR : a.half_widths.dot (obbAbsR a b).col0 + b.half_widths.x =
      b.half_widths.x + a.half_widths.dot (obbAbsR b a).r0 := by
    simp only [obbAbsR, obbR, Mat3.col0, Mat3.col1, Mat3.col2, Vec3.dot]
    ring_nf
  rw [hX, qabs_neg, hR]

theorem faceSym1 (a b : OBB) (ha : a.orientation.isRotation) :
    sepAxis a b 4 ↔ sepAxis b a 1 := by
  have hP := Mat3.parseval a.orientation (Mat3.rotation_mul_transpose _ ha)
    (b.center - a.center) (b.orientation.col1)
  show (qabs ((obbT a b).dot (obbR a b).col1) >
      a.half_widths.dot (obbAbsR a b).col1 + b.half_widths.y) ↔
    (qabs ((obbT b a).y) > b.half_widths.y + a.half_widths.dot (obbAbsR b a).r1)
  have hX : (obbT a b).dot (obbR a b).col1 = -((obbT b a).y) := by
    simp only [obbT, obbR, obbAbsR, Vec3.mulMat, Mat3.transpose, Mat3.col0, Mat3.col1, Mat3.col2,
      Vec3.dot, Vec3.cross, Vec3.sub_def] at hP ⊢
    linear_combination hP
  have hR : a.half_widths.dot (obbAbsR a b).col1 + b.half_widths.y =
      b.half_widths.y + a.half_widths.dot (obbAbsR b a).r1 := by
    simp only [obbAbsR, obbR, Mat3.col0, Mat3.col1, Mat3.col2, Vec3.dot]
    ring_nf
  rw [hX, qabs_neg, hR]

theorem faceSym2 (a b : OBB) (ha : a.orientation.isRotation) :
    sepAxis a b 5 ↔ sepAxis b a 2 := by
  have hP := Mat3.parseval a.orientation (Mat3.rotation_mul_transpose _ ha)
    (b.center - a.center) (b.orientation.col2)
  show (qabs ((obbT a b).dot (obbR a b).col2) >
      a.half_widths.dot (obbAbsR a b).col2 + b.half_widths.z) ↔
    (qabs ((obbT b a).z) > b.half_widths.z + a.half_widths.dot (obbAbsR b a).r2)
  have hX : (obbT a b).dot (obbR a b).col2 = -((obbT b a).z) := by
    simp only [obbT, obbR, obbAbsR, Vec3.mulMat, Mat3.transpose, Mat3.col0, Mat3.col1, Mat3.col2,
      Vec3.dot, Vec3.cross, Vec3.sub_def] at hP ⊢
    linear_combination hP
  have hR : a.half_widths.dot (obbAbsR a b).col2 + b.half_widths.z =
      b.half_widths.z + a.half_widths.dot (obbAbsR b a).r2 := by
    simp only [obbAbsR, obbR, Mat3.col0, Mat3.col1, Mat3.col2, Vec3.dot]
    ring_nf
  rw [hX, qabs_neg, hR]

theorem edgeSym00 (a b : OBB) (ha : a.orientation.isRotation)
    (hb : b.orientation.isRotation) :
    sepAxis a b 6 ↔ sepAxis b a 6 := by
  have hA := Mat3.triple0 a.orientation ha (b.center - a.center) (b.orientation.col0)
  have hB := Mat3.triple0 b.orientation hb (b.center - a.center) (a.orientation.col0)
  show (qabs ((obbT a b).z * (obbR a b).r1.x - (obbT a b).y * (obbR a b).r2.x) >
      a.half_widths.y * (obbAbsR a b).r2.x + a.half_widths.z * (obbAbsR a b).r1.x
    + b.half_widths.y * (obbAbsR a b).r0.z + b.half_widths.z * (obbAbsR a b).r0.y) ↔
    (qabs ((obbT b a).z * (obbR b a).r1.x - (obbT b a).y * (obbR b a).r2.x) >
      b.half_widths.y * (obbAbsR b a).r2.x + b.half_widths.z * (obbAbsR b a).r1.x
    + a.half_widths.y * (obbAbsR b a).r0.z + a.half_widths.z * (obbAbsR b a).r0.y)
  have hX : (obbT a b).z * (obbR a b).r1.x - (obbT a b).y * (obbR a b).r2.x =
      (obbT b a).z * (obbR b a).r1.x - (obbT b a).y * (obbR b a).r2.x := by
    simp only [obbT, obbR, obbAbsR, Vec3.mulMat, Mat3.transpose, Mat3.col0, Mat3.col1, Mat3.col2,
      Vec3.dot, Vec3.cross, Vec3.sub_def] at hA hB ⊢
    linear_combination hA + hB
  have hR : a.half_widths.y * (obbAbsR a b).r2.x + a.half_widths.z * (obbAbsR a b).r1.x
    + b.half_widths.y * (obbAbsR a b).r0.z + b.half_widths.z * (obbAbsR a b).r0.y =
      b.half_widths.y * (obbAbsR b a).r2.x + b.half_widths.z * (obbAbsR b a).r1.x
    + a.half_widths.y * (obbAbsR b a).r0.z + a.half_widths.z * (obbAbsR b a).r0.y := by
    simp only [obbAbsR, obbR, Mat3.col0, Mat3.col1, Mat3.col2, Vec3.dot]
    ring_nf
  rw [hX, hR]

theorem edgeSym01 (a b : OBB) (ha : a.orientation.isRotation)
    (hb : b.orientation.isRotation) :
    sepAxis a b 7 ↔ sepAxis b a 9 := by
  have hA := Mat3.triple0 a.orientation ha (b.center - a.center) (b.orientation.col1)
  have hB := Mat3.triple1 b.orientation hb (b.center - a.center) (a.orientation.col0)
  show (qabs ((obbT a b).z * (obbR a b).r1.y - (obbT a b).y * (obbR a b).r2.y) >
      a.half_widths.y * (obbAbsR a b).r2.y + a.half_widths.z * (obbAbsR a b).r1.y
    + b.half_widths.x * (obbAbsR a b).r0.z + b.half_widths.z * (obbAbsR a b).r0.x) ↔
    (qabs ((obbT b a).x * (obbR b a).r2.x - (obbT b a).z * (obbR b a).r0.x) >
      b.half_widths.x * (obbAbsR b a).r2.x + b.half_widths.z * (obbAbsR b a).r0.x
    + a.half_widths.y * (obbAbsR b a).r1.z + a.half_widths.z * (obbAbsR b a).r1.y)
  have hX : (obbT a b).z * (obbR a b).r1.y - (obbT a b).y * (obbR a b).r2.y =
      (obbT b a).x * (obbR b a).r2.x - (obbT b a).z * (obbR b a).r0.x := by
    simp only [obbT, obbR, obbAbsR, Vec3.mulMat, Mat3.transpose, Mat3.col0, Mat3.col1, Mat3.col2,
      Vec3.dot, Vec3.cross, Vec3.sub_def] at hA hB ⊢
    linear_combination hA + hB
  have hR : a.half_widths.y * (obbAbsR a b).r2.y + a.half_widths.z * (obbAbsR a b).r1.y
    + b.half_widths.x * (obbAbsR a b).r0.z + b.half_widths.z * (obbAbsR a b).r0.x =
      b.half_widths.x * (obbAbsR b a).r2.x + b.half_widths.z * (obbAbsR b a).r0.x
    + a.half_widths.y * (obbAbsR b a).r1.z + a.half_widths.z * (obbAbsR b a).r1.y := by
    simp only [obbAbsR, obbR, Mat3.col0, Mat3.col1, Mat3.col2, Vec3.dot]
    ring_nf
  rw [hX, hR]

theorem edgeSym02 (a b : OBB) (ha : a.orientation.isRotation)
    (hb : b.orientation.isRotation) :
    sepAxis a b 8 ↔ sepAxis b a 12 := by
  have hA := Mat3.triple0 a.orientation ha (b.center - a.center) (b.orientation.col2)
  have hB := Mat3.triple2 b.orientation hb (b.center - a.center) (a.orientation.col0)
  show (qabs ((obbT a b).z * (obbR a b).r1.z - (obbT a b).y * (obbR a b).r2.z) >
      a.half_widths.y * (obbAbsR a b).r2.z + a.half_widths.z * (obbAbsR a b).r1.z
    + b.half_widths.x * (obbAbsR a b).r0.y + b.half_widths.y * (obbAbsR a b).r0.x) ↔
    (qabs ((obbT b a).y * (obbR b a).r0.x - (obbT b a).x * (obbR b a).r1.x) >
      b.half_widths.x * (obbAbsR b a).r1.x + b.half_widths.y * (obbAbsR b a).r0.x
    + a.half_widths.y * (obbAbsR b a).r2.z + a.half_widths.z * (obbAbsR b a).r2.y)
  have hX : (obbT a b).z * (obbR a b).r1.z - (obbT a b).y * (obbR a b).r2.z =
      (obbT b a).y * (obbR b a).r0.x - (obbT b a).x * (obbR b a).r1.x := by
    simp only [obbT, obbR, obbAbsR, Vec3.mulMat, Mat3.transpose, Mat3.col0, Mat3.col1, Mat3.col2,
      Vec3.dot, Vec3.cross, Vec3.sub_def] at hA hB ⊢
    linear_combination hA + hB
  have hR : a.half_widths.y * (obbAbsR a b).r2.z + a.half_widths.z * (obbAbsR a b).r1.z
    + b.half_widths.x * (obbAbsR a b).r0.y + b.half_widths.y * (obbAbsR a b).r0.x =
      b.half_widths.x * (obbAbsR b a).r1.x + b.half_widths.y * (obbAbsR b a).r0.x
    + a.half_widths.y * (obbAbsR b a).r2.z + a.half_widths.z * (obbAbsR b a).r2.y := by
    simp only [obbAbsR, obbR, Mat3.col0, Mat3.col1, Mat3.col2, Vec3.dot]
    ring_nf
  rw [hX, hR]

theorem edgeSym10 (a b : OBB) (ha : a.orientation.isRotation)
    (hb : b.orientation.isRotation) :
    sepAxis a b 9 ↔ sepAxis b a 7 := by
  have hA := Mat3.triple1 a.orientation ha (b.center - a.center) (b.orientation.col0)
  have hB := Mat3.triple0 b.orientation hb (b.center - a.center) (a.orientation.col1)
  show (qabs ((obbT a b).x * (obbR a b).r2.x - (obbT a b).z * (obbR a b).r0.x) >
      a.half_widths.x * (obbAbsR a b).r2.x + a.half_widths.z * (obbAbsR a b).r0.x
    + b.half_widths.y * (obbAbsR a b).r1.z + b.half_widths.z * (obbAbsR a b).r1.y) ↔
    (qabs ((obbT b a).z * (obbR b a).r1.y - (obbT b a).y * (obbR b a).r2.y) >
      b.half_widths.y * (obbAbsR b a).r2.y + b.half_widths.z * (obbAbsR b a).r1.y
    + a.half_widths.x * (obbAbsR b a).r0.z + a.half_widths.z * (obbAbsR b a).r0.x)
  have hX : (obbT a b).x * (obbR a b).r2.x - (obbT a b).z * (obbR a b).r0.x =
      (obbT b a).z * (obbR b a).r1.y - (obbT b a).y * (obbR b a).r2.y := by
    simp only [obbT, obbR, obbAbsR, Vec3.mulMat, Mat3.transpose, Mat3.col0, Mat3.col1, Mat3.col2,
      Vec3.dot, Vec3.cross, Vec3.sub_def] at hA hB ⊢
    linear_combination hA + hB
  have hR : a.half_widths.x * (obbAbsR a b).r2.x + a.half_widths.z * (obbAbsR a b).r0.x
    + b.half_widths.y * (obbAbsR a b).r1.z + b.half_widths.z * (obbAbsR a b).r1.y =
      b.half_widths.y * (obbAbsR b a).r2.y + b.half_widths.z * (obbAbsR b a).r1.y
    + a.half_widths.x * (obbAbsR b a).r0.z + a.half_widths.z * (obbAbsR b a).r0.x := by
    simp only [obbAbsR, obbR, Mat3.col0, Mat3.col1, Mat3.col2, Vec3.dot]
    ring_nf
  rw [hX, hR]

theorem edgeSym11 (a b : OBB) (ha : a.orientation.isRotation)
    (hb : b.orientation.isRotation) :
    sepAxis a b 10 ↔ sepAxis b a 10 := by
  have hA := Mat3.triple1 a.orientation ha (b.center - a.center) (b.orientation.col1)
  have hB := Mat3.triple1 b.orientation hb (b.center - a.center) (a.orientation.col1)
  show (qabs ((obbT a b).x * (obbR a b).r2.y - (obbT a b).z * (obbR a b).r0.y) >
      a.half_widths.x * (obbAbsR a b).r2.y + a.half_widths.z * (obbAbsR a b).r0.y
    + b.half_widths.x * (obbAbsR a b).r1.z + b.half_widths.z * (obbAbsR a b).r1.x) ↔
    (qabs ((obbT b a).x * (obbR b a).r2.y - (obbT b a).z * (obbR b a).r0.y) >
      b.half_widths.x * (obbAbsR b a).r2.y + b.half_widths.z * (obbAbsR b a).r0.y
    + a.half_widths.x * (obbAbsR b a).r1.z + a.half_widths.z * (obbAbsR b a).r1.x)
  have hX : (obbT a b).x * (obbR a b).r2.y - (obbT a b).z * (obbR a b).r0.y =
      (obbT b a).x * (obbR b a).r2.y - (obbT b a).z * (obbR b a).r0.y := by
    simp only [obbT, obbR, obbAbsR, Vec3.mulMat, Mat3.transpose, Mat3.col0, Mat3.col1, Mat3.col2,
      Vec3.dot, Vec3.cross, Vec3.sub_def] at hA hB ⊢
    linear_combination hA + hB
  have hR : a.half_widths.x * (obbAbsR a b).r2.y + a.half_widths.z * (obbAbsR a b).r0.y
    + b.half_widths.x * (obbAbsR a b).r1.z + b.half_widths.z * (obbAbsR a b).r1.x =
      b.half_widths.x * (obbAbsR b a).r2.y + b.half_widths.z * (obbAbsR b a).r0.y
    + a.half_widths.x * (obbAbsR b a).r1.z + a.half_widths.z * (obbAbsR b a).r1.x := by
    simp only [obbAbsR, obbR, Mat3.col0, Mat3.col1, Mat3.col2, Vec3.dot]
    ring_nf
  rw [hX, hR]

theorem edgeSym12 (a b : OBB) (ha : a.orientation.isRotation)
    (hb : b.orientation.isRotation) :
    sepAxis a b 11 ↔ sepAxis b a 13 := by
  have hA := Mat3.triple1 a.orientation ha (b.center - a.center) (b.orientation.col2)
  have hB := Mat3.triple2 b.orientation hb (b.center - a.center) (a.orientation.col1)
  show (qabs ((obbT a b).x * (obbR a b).r2.z - (obbT a b).z * (obbR a b).r0.z) >
      a.half_widths.x * (obbAbsR a b).r2.z + a.half_widths.z * (obbAbsR a b).r0.z
    + b.half_widths.x * (obbAbsR a b).r1.y + b.half_widths.y * (obbAbsR a b).r1.x) ↔
    (qabs ((obbT b a).y * (obbR b a).r0.y - (obbT b a).x * (obbR b a).r1.y) >
      b.half_widths.x * (obbAbsR b a).r1.y + b.half_widths.y * (obbAbsR b a).r0.y
    + a.half_widths.x * (obbAbsR b a).r2.z + a.half_widths.z * (obbAbsR b a).r2.x)
  have hX : (obbT a b).x * (obbR a b).r2.z - (obbT a b).z * (obbR a b).r0.z =
      (obbT b a).y * (obbR b a).r0.y - (obbT b a).x * (obbR b a).r1.y := by
    simp only [obbT, obbR, obbAbsR, Vec3.mulMat, Mat3.transpose, Mat3.col0, Mat3.col1, Mat3.col2,
      Vec3.dot, Vec3.cross, Vec3.sub_def] at hA hB ⊢
    linear_combination hA + hB
  have hR : a.half_widths.x * (obbAbsR a b).r2.z + a.half_widths.z * (obbAbsR a b).r0.z
    + b.half_widths.x * (obbAbsR a b).r1.y + b.half_widths.y * (obbAbsR a b).r1.x =
      b.half_widths.x * (obbAbsR b a).r1.y + b.half_widths.y * (obbAbsR b a).r0.y
    + a.half_widths.x * (obbAbsR b a).r2.z + a.half_widths.z * (obbAbsR b a).r2.x := by
    simp only [obbAbsR, obbR, Mat3.col0, Mat3.col1, Mat3.col2, Vec3.dot]
    ring_nf
  rw [hX, hR]

theorem edgeSym20 (a b : OBB) (ha : a.orientation.isRotation)
    (hb : b.orientation.isRotation) :
    sepAxis a b 12 ↔ sepAxis b a 8 := by
  have hA := Mat3.triple2 a.orientation ha (b.center - a.center) (b.orientation.col0)
  have hB := Mat3.triple0 b.orientation hb (b.center - a.center) (a.orientation.col2)
  show (qabs ((obbT a b).y * (obbR a b).r0.x - (obbT a b).x * (obbR a b).r1.x) >
      a.half_widths.x * (obbAbsR a b).r1.x + a.half_widths.y * (obbAbsR a b).r0.x
    + b.half_widths.y * (obbAbsR a b).r2.z + b.half_widths.z * (obbAbsR a b).r2.y) ↔
    (qabs ((obbT b a).z * (obbR b a).r1.z - (obbT b a).y * (obbR b a).r2.z) >
      b.half_widths.y * (obbAbsR b a).r2.z + b.half_widths.z * (obbAbsR b a).r1.z
    + a.half_widths.x * (obbAbsR b a).r0.y + a.half_widths.y * (obbAbsR b a).r0.x)
  have hX : (obbT a b).y * (obbR a b).r0.x - (obbT a b).x * (obbR a b).r1.x =
      (obbT b a).z * (obbR b a).r1.z - (obbT b a).y * (obbR b a).r2.z := by
    simp only [obbT, obbR, obbAbsR, Vec3.mulMat, Mat3.transpose, Mat3.col0, Mat3.col1, Mat3.col2,
      Vec3.dot, Vec3.cross, Vec3.sub_def] at hA hB ⊢
    linear_combination hA + hB
  have hR : a.half_widths.x * (obbAbsR a b).r1.x + a.half_widths.y * (obbAbsR a b).r0.x
    + b.half_widths.y * (obbAbsR a b).r2.z + b.half_widths.z * (obbAbsR a b).r2.y =
      b.half_widths.y * (obbAbsR b a).r2.z + b.half_widths.z * (obbAbsR b a).r1.z
    + a.half_widths.x * (obbAbsR b a).r0.y + a.half_widths.y * (obbAbsR b a).r0.x := by
    simp only [obbAbsR, obbR, Mat3.col0, Mat3.col1, Mat3.col2, Vec3.dot]
    ring_nf
  rw [hX, hR]

theorem edgeSym21 (a b : OBB) (ha : a.orientation.isRotation)
    (hb : b.orientation.isRotation) :
    sepAxis a b 13 ↔ sepAxis b a 11 := by
  have hA := Mat3.triple2 a.orientation ha (b.center - a.center) (b.orientation.col1)
  have hB := Mat3.triple1 b.orientation hb (b.center - a.center) (a.orientation.col2)
  show (qabs ((obbT a b).y * (obbR a b).r0.y - (obbT a b).x * (obbR a b).r1.y) >
      a.half_widths.x * (obbAbsR a b).r1.y + a.half_widths.y * (obbAbsR a b).r0.y
    + b.half_widths.x * (obbAbsR a b).r2.z + b.half_widths.z * (obbAbsR a b).r2.x) ↔
    (qabs ((obbT b a).x * (obbR b a).r2.z - (obbT b a).z * (obbR b a).r0.z) >
      b.half_widths.x * (obbAbsR b a).r2.z + b.half_widths.z * (obbAbsR b a).r0.z
    + a.half_widths.x * (obbAbsR b a).r1.y + a.half_widths.y * (obbAbsR b a).r1.x)
  have hX : (obbT a b).y * (obbR a b).r0.y - (obbT a b).x * (obbR a b).r1.y =
      (obbT b a).x * (obbR b a).r2.z - (obbT b a).z * (obbR b a).r0.z := by
    simp only [obbT, obbR, obbAbsR, Vec3.mulMat, Mat3.transpose, Mat3.col0, Mat3.col1, Mat3.col2,
      Vec3.dot, Vec3.cross, Vec3.sub_def] at hA hB ⊢
    linear_combination hA + hB
  have hR : a.half_widths.x * (obbAbsR a b).r1.y + a.half_widths.y * (obbAbsR a b).r0.y
    + b.half_widths.x * (obbAbsR a b).r2.z + b.half_widths.z * (obbAbsR a b).r2.x =
      b.half_widths.x * (obbAbsR b a).r2.z + b.half_widths.z * (obbAbsR b a).r0.z
    + a.half_widths.x * (obbAbsR b a).r1.y + a.half_widths.y * (obbAbsR b a).r1.x := by
    simp only [obbAbsR, obbR, Mat3.col0, Mat3.col1, Mat3.col2, Vec3.dot]
    ring_nf
  rw [hX, hR]

theorem edgeSym22 (a b : OBB) (ha : a.orientation.isRotation)
    (hb : b.orientation.isRotation) :
    sepAxis a b 14 ↔ sepAxis b a 14 := by
  have hA := Mat3.triple2 a.orientation ha (b.center - a.center) (b.orientation.col2)
  have hB := Mat3.triple2 b.orientation hb (b.center - a.center) (a.orientation.col2)
  show (qabs ((obbT a b).y * (obbR a b).r0.z - (obbT a b).x * (obbR a b).r1.z) >
      a.half_widths.x * (obbAbsR a b).r1.z + a.half_widths.y * (obbAbsR a b).r0.z
    + b.half_widths.x * (obbAbsR a b).r2.y + b.half_widths.y * (obbAbsR a b).r2.x) ↔
    (qabs ((obbT b a).y * (obbR b a).r0.z - (obbT b a).x * (obbR b a).r1.z) >
      b.half_widths.x * (obbAbsR b a).r1.z + b.half_widths.y * (obbAbsR b a).r0.z
    + a.half_widths.x * (obbAbsR b a).r2.y + a.half_widths.y * (obbAbsR b a).r2.x)
  have hX : (obbT a b).y * (obbR a b).r0.z - (obbT a b).x * (obbR a b).r1.z =
      (obbT b a).y * (obbR b a).r0.z - (obbT b a).x * (obbR b a).r1.z := by
    simp only [obbT, obbR, obbAbsR, Vec3.mulMat, Mat3.transpose, Mat3.col0, Mat3.col1, Mat3.col2,
      Vec3.dot, Vec3.cross, Vec3.sub_def] at hA hB ⊢
    linear_combination hA + hB
  have hR : a.half_widths.x * (obbAbsR a b).r1.z + a.half_widths.y * (obbAbsR a b).r0.z
    + b.half_widths.x * (obbAbsR a b).r2.y + b.half_widths.y * (obbAbsR a b).r2.x =
      b.half_widths.x * (obbAbsR b a).r1.z + b.half_widths.y * (obbAbsR b a).r0.z
    + a.half_widths.x * (obbAbsR b a).r2.y + a.half_widths.y * (obbAbsR b a).r2.x := by
    simp only [obbAbsR, obbR, Mat3.col0, Mat3.col1, Mat3.col2, Vec3.dot]
    ring_nf
  rw [hX, hR]

theorem sep_exists_forward (a b : OBB) (ha : a.orientation.isRotation)
    (hb : b.orientation.isRotation) :
    (∃ k, sepAxis a b k) → ∃ k, sepAxis b a k := by
  rintro ⟨k, hk⟩
  fin_cases k
  exacts [⟨3, (faceSym0 b a hb).mpr hk⟩, ⟨4, (faceSym1 b a hb).mpr hk⟩,
    ⟨5, (faceSym2 b a hb).mpr hk⟩, ⟨0, (faceSym0 a b ha).mp hk⟩,
    ⟨1, (faceSym1 a b ha).mp hk⟩, ⟨2, (faceSym2 a b ha).mp hk⟩,
    ⟨6, (edgeSym00 a b ha hb).mp hk⟩, ⟨9, (edgeSym01 a b ha hb).mp hk⟩,
    ⟨12, (edgeSym02 a b ha hb).mp hk⟩, ⟨7, (edgeSym10 a b ha hb).mp hk⟩,
    ⟨10, (edgeSym11 a b ha hb).mp hk⟩, ⟨13, (edgeSym12 a b ha hb).mp hk⟩,
    ⟨8, (edgeSym20 a b ha hb).mp hk⟩, ⟨11, (edgeSym21 a b ha hb).mp hk⟩,
    ⟨14, (edgeSym22 a b ha hb).mp hk⟩]

/-- C5: the SAT box-box predicate is symmetric, `test(a,b) = test(b,a)`,
for boxes of arbitrary position and size whose orientations are rotation
matrices (the only orientations the engine constructs, via
`Matrix3::from_quaternion`). -/
theorem test_obb_symm (a b : OBB) (ha : a.orientation.isRotation)
    (hb : b.orientation.isRotation) : a.test_obb b = b.test_obb a := by
  have h1 := test_obb_false_iff a b
  have h2 := test_obb_false_iff b a
  have hex : (∃ k, sepAxis a b k) ↔ ∃ k, sepAxis b a k :=
    ⟨sep_exists_forward a b ha hb, sep_exists_forward b a hb ha⟩
  rcases Bool.eq_false_or_eq_true (a.test_obb b) with h | h <;>
    rcases Bool.eq_false_or_eq_true (b.test_obb a) with h' | h'
  · rw [h, h']
  · have hcontra := h1.mpr (hex.mpr (h2.mp h'))
    rw [h] at hcontra
    exact absurd hcontra (by simp)
  · have hcontra := h2.mpr (hex.mp (h1.mp h))
    rw [h'] at hcontra
    exact absurd hcontra (by simp)
  · rw [h, h']

/-- Witness for C5: an axis-aligned box against a box rotated by the 3-4-5
rotation about the z axis. -/
theorem test_obb_symm_witness :
    c5BoxA.orientation.isRotation ∧ c5BoxB.orientation.isRotation ∧
    c5BoxA.test_obb c5BoxB = c5BoxB.test_obb c5BoxA := by
  have hA : c5BoxA.orientation.isRotation := by
    constructor
    · ext <;>
        norm_num [c5BoxA, Mat3.mul, Mat3.transpose, Mat3.id3, Mat3.col0, Mat3.col1,
          Mat3.col2, Vec3.dot]
    · norm_num [c5BoxA, Mat3.det, Mat3.id3]
  have hB : c5BoxB.orientation.isRotation := by
    constructor
    · ext <;>
        norm_num [c5BoxB, rot345, Mat3.mul, Mat3.transpose, Mat3.id3, Mat3.col0,
          Mat3.col1, Mat3.col2, Vec3.dot]
    · norm_num [c5BoxB, rot345, Mat3.det, Mat3.id3]
  exact ⟨hA, hB, test_obb_symm c5BoxA c5BoxB hA hB⟩
